import Mathlib

/-!
# Verification of the disk-cleaner scan/cache/dedup/delete core

Shallow embedding of the Python sources of `gccszs/disk-cleaner`:

* `diskcleaner/core/duplicate_finder.py` — `DuplicateFinder`
* `diskcleaner/optimization/hash.py`     — optimized `DuplicateFinder`
* `diskcleaner/core/safety.py`           — `SafetyChecker`
* `diskcleaner/core/cache.py`            — `CacheManager`
* `diskcleaner/core/scanner.py`          — `DirectoryScanner`
* `diskcleaner/optimization/scan.py`     — `ConcurrentScanner`, `ScanStrategy`
* `diskcleaner/optimization/delete.py`   — `BatchDeleter`

Modelling conventions: paths are `String`s; timestamps are integer seconds
(`Int`); filesystem contents, hash computations and OS probes that the Python
code performs through syscalls are abstracted as explicit oracle functions
passed to the embedded definitions (the Python functions read state that is
not part of their arguments).  Python `dict`s built by repeated insertion are
modelled by association lists that keep the first-insertion key order and
append values in arrival order, matching CPython's documented iteration
order.
-/

/-- Embedding of `FileInfo` from `diskcleaner/core/scanner.py` (also used by
`duplicate_finder.py` and `safety.py`).  `mtime` is modelled at whole-second
granularity (`Int`); wherever the code inspects `mtime` it either compares it
for equality or truncates it with `int(...)`. -/
structure FileInfo where
  path : String
  name : String
  size : Nat
  mtime : Int
  is_dir : Bool
  is_link : Bool
  inode : Option Nat := none
  depth : Nat := 0
deriving Repr, DecidableEq, Inhabited

/-- Embedding of `DuplicateGroup` from `diskcleaner/core/duplicate_finder.py`. -/
structure DuplicateGroup where
  files : List FileInfo
  size : Nat
  hash_value : Option String := none
deriving Repr, DecidableEq, Inhabited

namespace DuplicateGroup

/-- Embedding of `DuplicateGroup.count` property. -/
def count (g : DuplicateGroup) : Nat :=
  g.files.length

/-- Embedding of `DuplicateGroup.reclaimable_space` property: `size * (count - 1)`. -/
def reclaimable_space (g : DuplicateGroup) : Nat :=
  g.size * (g.count - 1)

end DuplicateGroup

/-- One insertion step of the Python idiom
`if k not in d: d[k] = []` / `d[k].append(v)`: a new key goes to the end of
the association list (CPython dicts iterate in insertion order), an existing
key has the value appended at the end of its bucket. -/
def dictInsert {K V : Type} [DecidableEq K] :
    List (K × List V) → K → V → List (K × List V)
  | [], k, v => [(k, [v])]
  | (k', vs) :: t, k, v =>
      if k = k' then (k', vs ++ [v]) :: t else (k', vs) :: dictInsert t k v

/-- Build the grouping dict of a list, left to right.  A key of `none` means
the per-value key computation raised (`OSError`/`IOError`) and the value is
skipped, mirroring the `try/except: continue` pattern around hashing. -/
def dictGroup {K V : Type} [DecidableEq K] (key : V → Option K)
    (l : List V) : List (K × List V) :=
  l.foldl
    (fun acc v =>
      match key v with
      | none => acc
      | some k => dictInsert acc k v)
    []

namespace DuplicateFinder

/-- Embedding of `DuplicateFinder.ADAPTIVE_THRESHOLD`. -/
def ADAPTIVE_THRESHOLD : Nat := 1000

/-- Embedding of `DuplicateFinder._should_use_accurate` from
`diskcleaner/core/duplicate_finder.py`: the `file_count` argument it receives
in `find_duplicates` is `len(file_list)`, the number of non-directory input
files. -/
def should_use_accurate (strategy : String) (file_count : Nat) : Bool :=
  if strategy = "accurate" then true
  else if strategy = "fast" then false
  else decide (file_count < ADAPTIVE_THRESHOLD)

/-- Embedding of `DuplicateFinder._find_by_hash`.  `hashFn` is the oracle for
`_calculate_hash(path)`; `none` models an `OSError`/`IOError` (the file is
skipped). -/
def find_by_hash (hashFn : String → Option String)
    (files : List FileInfo) : List DuplicateGroup :=
  let hash_groups := dictGroup (fun f => hashFn f.path) files
  hash_groups.filterMap fun p =>
    if 1 < p.2.length then
      some { files := p.2, size := p.2.headI.size, hash_value := some p.1 }
    else none

/-- Embedding of `DuplicateFinder._find_by_fast_strategy`: group by exact size, sub-group
each size bucket by 1-second mtime bucket (`int(file_info.mtime)`), then
hash-verify sub-groups with at least two members. -/
def find_by_fast_strategy (hashFn : String → Option String)
    (files : List FileInfo) : List DuplicateGroup :=
  let size_groups := dictGroup (fun f => some f.size) files
  let potential_duplicates : List (Nat × List FileInfo) :=
    size_groups.flatMap fun p =>
      if p.2.length < 2 then []
      else
        (dictGroup (fun f => some f.mtime) p.2).filterMap fun q =>
          if 2 ≤ q.2.length then some (p.1, q.2) else none
  potential_duplicates.flatMap fun sp =>
    (dictGroup (fun f => hashFn f.path) sp.2).filterMap fun q =>
      if 2 ≤ q.2.length then
        some { files := q.2, size := sp.1, hash_value := some q.1 }
      else none

/-- Embedding of `DuplicateFinder.find_duplicates`: filter out directories, pick the
strategy, and sort the groups by reclaimable space, descending
(`duplicates.sort(key=lambda d: d.reclaimable_space, reverse=True)`).
Python's `list.sort` is a stable sort, and a stable sort by a total preorder
is uniquely determined, so the stable `List.insertionSort` with the flipped
`≤` computes exactly the same list. -/
def find_duplicates (strategy : String) (hashFn : String → Option String)
    (files : List FileInfo) : List DuplicateGroup :=
  if files.isEmpty then []
  else
    let file_list := files.filter fun f => !f.is_dir
    if file_list.isEmpty then []
    else
      let use_accurate := should_use_accurate strategy file_list.length
      let duplicates :=
        if use_accurate then find_by_hash hashFn file_list
        else find_by_fast_strategy hashFn file_list
      duplicates.insertionSort fun a b =>
        b.reclaimable_space ≤ a.reclaimable_space

end DuplicateFinder

/-- Modelled from the spec: the candidate sets are the groups of files
sharing an exact size, "pre-filtered before hashing"; the candidate count is
the number of files that share their exact size with another input file,
i.e. the total size of the non-singleton size groups. -/
def candidateCountSpec (files : List FileInfo) : Nat :=
  (((dictGroup (fun f : FileInfo => some f.size) files).filter fun p =>
    2 ≤ p.2.length).map fun p => p.2.length).sum

namespace Opt

/-- Embedding of `FileInfo` from `diskcleaner/optimization/scan.py` (used by
`optimization/hash.py`). -/
structure FileInfo where
  path : String
  name : String
  size : Nat
  mtime : Int
  is_dir : Bool := false
  depth : Nat := 0
deriving Repr, DecidableEq, Inhabited

/-- Embedding of `DuplicateGroup` from `diskcleaner/optimization/hash.py`: here `count`
and `reclaimable_space` are stored fields, set at construction. -/
structure DuplicateGroup where
  files : List Opt.FileInfo
  size : Nat
  count : Nat
  hash_value : String
  reclaimable_space : Nat
deriving Repr, DecidableEq, Inhabited

/-- Embedding of `FastFilter.quick_dedup`: group by exact size, keep groups with more
than one member. -/
def quick_dedup (files : List Opt.FileInfo) : List (List Opt.FileInfo) :=
  ((dictGroup (fun f => some f.size) files).filter fun p =>
    1 < p.2.length).map Prod.snd

/-- Embedding of `DuplicateFinder.find_duplicates` from
`diskcleaner/optimization/hash.py`.  `hashFn` is the oracle for the computed
hash of a path (`hashes.get(file.path, "")`); the empty string marks a failed
hash and the file is skipped (`if not hash_value: continue`). -/
def find_duplicates (hashFn : String → String)
    (files : List Opt.FileInfo) : List Opt.DuplicateGroup :=
  if files.isEmpty then []
  else
    let candidates := quick_dedup files
    if candidates.isEmpty then []
    else
      let files_to_hash := candidates.flatMap id
      let hash_groups :=
        dictGroup
          (fun f => if hashFn f.path = "" then none else some (hashFn f.path))
          files_to_hash
      let duplicates := hash_groups.filterMap fun p =>
        if 1 < p.2.length then
          some { files := p.2, size := p.2.headI.size, count := p.2.length,
                 hash_value := p.1,
                 reclaimable_space := p.2.headI.size * (p.2.length - 1) }
        else none
      duplicates.insertionSort fun a b =>
        b.reclaimable_space ≤ a.reclaimable_space

end Opt


instance : IsTotal DuplicateGroup
    fun a b => b.reclaimable_space ≤ a.reclaimable_space :=
  ⟨fun _ _ => Nat.le_total _ _⟩

instance : IsTrans DuplicateGroup
    fun a b => b.reclaimable_space ≤ a.reclaimable_space :=
  ⟨fun _ _ _ h1 h2 => le_trans h2 h1⟩

instance : IsTotal Opt.DuplicateGroup
    fun a b => b.reclaimable_space ≤ a.reclaimable_space :=
  ⟨fun _ _ => Nat.le_total _ _⟩

instance : IsTrans Opt.DuplicateGroup
    fun a b => b.reclaimable_space ≤ a.reclaimable_space :=
  ⟨fun _ _ _ h1 h2 => le_trans h2 h1⟩


/-- Probe input for the adaptive-selection claim, one pad file: size
`1000 + i`, so the 998 pads have pairwise distinct sizes; their hashing
raises `OSError` (see `adaptiveProbeHash`). -/
def padFile (i : Nat) : FileInfo :=
  { path := "x", name := "x", size := 1000 + i, mtime := 0,
    is_dir := false, is_link := false }

/-- First member of the duplicate pair of the probe (size 5000). -/
def probeDupA : FileInfo :=
  { path := "a", name := "a", size := 5000, mtime := 0,
    is_dir := false, is_link := false }

/-- Second member of the duplicate pair of the probe: same size and content
as `probeDupA` but a different 1-second mtime bucket. -/
def probeDupB : FileInfo :=
  { path := "b", name := "b", size := 5000, mtime := 10,
    is_dir := false, is_link := false }

/-- Probe input for the adaptive-selection claim: 1000 non-directory files —
998 pads of pairwise distinct sizes whose hashing raises, plus the two true
duplicates `a`, `b` of size 5000 in different mtime buckets.  The spec's
candidate count (files sharing an exact size) is 2; the file count is
1000. -/
def adaptiveProbeFiles : List FileInfo :=
  ((List.range 998).map padFile) ++ [probeDupA, probeDupB]

/-- Hash oracle for `adaptiveProbeFiles`: `a` and `b` have equal content
hash, every other file's hash computation raises `OSError`. -/
def adaptiveProbeHash : String → Option String := fun p =>
  if p = "a" then some "dup" else if p = "b" then some "dup" else none

/-- Embedding of Python's `str.startswith`: `pyStartswith pre s` is true when
`pre` is a prefix of `s`, computed structurally on the character lists. -/
def pyStartswith (pre s : String) : Bool :=
  pre.data.isPrefixOf s.data

/-- Embedding of `FileStatus` from `diskcleaner/core/safety.py`. -/
inductive FileStatus where
  | SAFE
  | LOCKED
  | NO_PERMISSION
  | PROTECTED
  | ERROR
deriving Repr, DecidableEq

/-- The configuration state of `SafetyChecker` (`core/safety.py`):
protection lists and the `check_file_locks` / `verify_permissions`
settings loaded in `__init__`. -/
structure SafetyChecker where
  protected_paths : List String
  protected_extensions : List String
  protected_patterns : List String
  check_locks : Bool
  verify_perms : Bool

/-- OS oracles consulted by `SafetyChecker`: `normpath` stands for
`os.path.normpath`, `extOf` for `os.path.splitext(name)[1].lower()`,
`fnmatch` for `fnmatch.fnmatch`, `locked` for the result of the
platform-specific `_is_locked` probe, and `writeAccess` for
`os.access(path, os.W_OK)`. -/
structure OsOracle where
  normpath : String → String
  extOf : String → String
  fnmatch : String → String → Bool
  locked : String → Bool
  writeAccess : String → Bool

namespace SafetyChecker

/-- Embedding of `SafetyChecker._is_protected_path`: normalize both sides, then prefix
test (`path.startswith(protected)`). -/
def is_protected_path (c : SafetyChecker) (os : OsOracle) (path : String) : Bool :=
  c.protected_paths.any fun pr => pyStartswith (os.normpath pr) (os.normpath path)

/-- Embedding of `SafetyChecker._is_protected_extension`: lower-cased extension membership. -/
def is_protected_extension (c : SafetyChecker) (os : OsOracle)
    (filename : String) : Bool :=
  c.protected_extensions.contains (os.extOf filename)

/-- Embedding of `SafetyChecker._is_protected_pattern`: `fnmatch` against every pattern. -/
def is_protected_pattern (c : SafetyChecker) (os : OsOracle)
    (filename : String) : Bool :=
  c.protected_patterns.any fun pat => os.fnmatch filename pat

/-- Embedding of `SafetyChecker._is_locked`: the platform dispatch
(Windows exclusive-open probe / Unix `lsof` query) collapses to the `locked`
oracle. -/
def is_locked (_ : SafetyChecker) (os : OsOracle) (path : String) : Bool :=
  os.locked path

/-- Embedding of `SafetyChecker._has_write_permission`. -/
def has_write_permission (_ : SafetyChecker) (os : OsOracle) (path : String) : Bool :=
  os.writeAccess path

/-- Embedding of `SafetyChecker.verify_file`: protected path → protected extension →
protected pattern → (if enabled) lock probe → (if enabled) write-permission
check → `SAFE`. -/
def verify_file (c : SafetyChecker) (os : OsOracle) (file : FileInfo) :
    FileStatus :=
  if c.is_protected_path os file.path then FileStatus.PROTECTED
  else if c.is_protected_extension os file.name then FileStatus.PROTECTED
  else if c.is_protected_pattern os file.name then FileStatus.PROTECTED
  else if c.check_locks && c.is_locked os file.path then FileStatus.LOCKED
  else if c.verify_perms && !(c.has_write_permission os file.path) then
    FileStatus.NO_PERMISSION
  else FileStatus.SAFE

/-- Embedding of `SafetyChecker.verify_all`: skip directories, verify each file. -/
def verify_all (c : SafetyChecker) (os : OsOracle) (files : List FileInfo) :
    List (FileInfo × FileStatus) :=
  (files.filter fun f => !f.is_dir).map fun f => (f, c.verify_file os f)

end SafetyChecker

/-- Embedding of `FileSnapshot` from `diskcleaner/core/cache.py`. -/
structure FileSnapshot where
  path : String
  size : Nat
  mtime : Int
  inode : Option Nat := none
deriving Repr, DecidableEq

/-- Embedding of `ScanSnapshot` from `diskcleaner/core/cache.py`. -/
structure ScanSnapshot where
  path : String
  timestamp : Int
  files : List FileSnapshot := []
  total_size : Nat := 0
  file_count : Nat := 0
deriving Repr, DecidableEq

/-- The JSON object `FileSnapshot.to_dict` (= `dataclasses.asdict`) writes. -/
structure FileSnapshotDict where
  path : String
  size : Nat
  mtime : Int
  inode : Option Nat
deriving Repr, DecidableEq

/-- The JSON object `ScanSnapshot.to_dict` writes. -/
structure ScanSnapshotDict where
  path : String
  timestamp : Int
  files : List FileSnapshotDict
  total_size : Nat
  file_count : Nat
deriving Repr, DecidableEq

/-- Embedding of `FileSnapshot.to_dict`. -/
def FileSnapshot.to_dict (s : FileSnapshot) : FileSnapshotDict :=
  { path := s.path, size := s.size, mtime := s.mtime, inode := s.inode }

/-- Embedding of `FileSnapshot.from_dict`. -/
def FileSnapshot.from_dict (d : FileSnapshotDict) : FileSnapshot :=
  { path := d.path, size := d.size, mtime := d.mtime, inode := d.inode }

/-- Embedding of `ScanSnapshot.to_dict`. -/
def ScanSnapshot.to_dict (s : ScanSnapshot) : ScanSnapshotDict :=
  { path := s.path, timestamp := s.timestamp,
    files := s.files.map FileSnapshot.to_dict,
    total_size := s.total_size, file_count := s.file_count }

/-- Embedding of `ScanSnapshot.from_dict`. -/
def ScanSnapshot.from_dict (d : ScanSnapshotDict) : ScanSnapshot :=
  { path := d.path, timestamp := d.timestamp,
    files := d.files.map FileSnapshot.from_dict,
    total_size := d.total_size, file_count := d.file_count }

/-- The contents of the `CacheManager` cache directory: cache-file name
(as produced by `_get_cache_path`) → (file mtime, parsed JSON payload).
`save_scan_cache` only ever writes `json.dump(snapshot.to_dict())`, so a
stored payload is a well-formed `ScanSnapshotDict`. -/
def CacheStore : Type := String → Option (Int × ScanSnapshotDict)

namespace CacheManager

/-- Embedding of `CacheManager.get_scan_cache`: miss if absent; if the file's age exceeds
`max_age_days` (strictly), delete it eagerly and miss; otherwise parse and
return.  `ph` abstracts `_get_cache_path` (the MD5 name of the root path);
`now` is `time.time()`.  Returns the updated cache directory together with
the result. -/
def get_scan_cache (ph : String → String) (st : CacheStore) (path : String)
    (max_age_days : Int) (now : Int) : CacheStore × Option ScanSnapshot :=
  match st (ph path) with
  | none => (st, none)
  | some (mt, data) =>
      if now - mt > max_age_days * 24 * 3600 then
        (fun k => if k = ph path then none else st k, none)
      else
        (st, some (ScanSnapshot.from_dict data))

/-- Embedding of `CacheManager.save_scan_cache`: write `snapshot.to_dict()` to the cache
file for `path`; the file's mtime becomes the write time. -/
def save_scan_cache (ph : String → String) (st : CacheStore) (path : String)
    (snapshot : ScanSnapshot) (now : Int) : CacheStore :=
  fun k => if k = ph path then some (now, snapshot.to_dict) else st k

/-- Embedding of `CacheManager.is_file_changed`: size, mtime, then inode when both
present; any single mismatch suffices. -/
def is_file_changed (current cached : FileSnapshot) : Bool :=
  if current.size != cached.size then true
  else if current.mtime != cached.mtime then true
  else
    match current.inode, cached.inode with
    | some ci, some hi => ci != hi
    | _, _ => false

end CacheManager

/-- The state of one path as observed by `BatchDeleter._delete_batch`
(`optimization/delete.py`): nonexistent, or present with its writability
(`os.access(file, os.W_OK)`), its `stat().st_size`, whether it is a
directory, and whether the `stat` call or the removal call
(`unlink`/`rmtree`) raises. -/
inductive FState where
  | absent
  | present (writable : Bool) (size : Nat) (isDir : Bool)
      (statFails : Bool) (removeFails : Bool)
deriving Repr, DecidableEq

/-- Embedding of `DeleteResult` from `diskcleaner/optimization/delete.py`.  Note that
`failed` is a bare list of paths — the dataclass has no field for the
underlying OS error.  `elapsed_time` (a wall-clock float) is modelled as a
constant 0. -/
structure DeleteResult where
  success : List String
  failed : List String
  total_deleted : Nat
  total_failed : Nat
  total_size_freed : Nat
  elapsed_time : Int := 0
  cancelled : Bool := false
deriving Repr, DecidableEq

namespace BatchDeleter

/-- Embedding of `BatchDeleter._delete_batch`: per file — a failing write-permission
check appends the path to `failed` and continues; a raising `stat` makes the
freed size 0; a raising removal appends the path to `failed`; otherwise the
path goes to `success` and its size to `size_freed`.  The function is total:
no per-file failure escapes the loop. -/
def delete_batch (fs : String → FState) (files : List String) :
    List String × List String × Nat :=
  files.foldl
    (fun acc file =>
      match fs file with
      | FState.absent => (acc.1, acc.2.1 ++ [file], acc.2.2)
      | FState.present w sz _ stF rmF =>
          if !w then (acc.1, acc.2.1 ++ [file], acc.2.2)
          else
            let file_size := if stF then 0 else sz
            if rmF then (acc.1, acc.2.1 ++ [file], acc.2.2)
            else (acc.1 ++ [file], acc.2.1, acc.2.2 + file_size))
    ([], [], 0)

/-- Embedding of `BatchDeleter.delete_with_progress` with `progress_callback=None`:
select the batch size tier from the input size, split into contiguous
batches (`files[i:i+batch_size]`), run `_delete_batch` on each and
accumulate.  Without a callback no cancellation can occur and the pacing
sleep is unobservable. -/
def delete_with_progress (fs : String → FState) (files : List String) :
    DeleteResult :=
  if files.isEmpty then
    { success := [], failed := [], total_deleted := 0, total_failed := 0,
      total_size_freed := 0 }
  else
    let file_count := files.length
    let batch_size :=
      if file_count < 5000 then 1000
      else if file_count < 20000 then 5000 else 10000
    let r :=
      (files.toChunks batch_size).foldl
        (fun acc batch =>
          let b := delete_batch fs batch
          (acc.1 ++ b.1, acc.2.1 ++ b.2.1, acc.2.2 + b.2.2))
        (([] : List String), ([] : List String), (0 : Nat))
    { success := r.1, failed := r.2.1, total_deleted := r.1.length,
      total_failed := r.2.1.length, total_size_freed := r.2.2 }

end BatchDeleter

/-- A node of a filesystem tree as observed through `lstat`/`scandir`:
either a file or a directory, each carrying the entry name, `st_size`,
`st_mtime`, whether the entry is a symbolic link (a link to a directory is a
`dir` node with `isLink = true`; it is never recursed into, so the model
stays a tree), `st_ino`, and whether the `stat` call raises; a directory
additionally records whether listing it raises `PermissionError` and its
children. -/
inductive FsNode where
  | file (name : String) (size : Nat) (mtime : Int) (isLink : Bool)
      (inode : Option Nat) (statError : Bool)
  | dir (name : String) (size : Nat) (mtime : Int) (isLink : Bool)
      (inode : Option Nat) (statError : Bool) (readable : Bool)
      (children : List FsNode)
deriving Repr

namespace FsNode

/-- Entry name. -/
def name : FsNode → String
  | file n _ _ _ _ _ => n
  | dir n _ _ _ _ _ _ _ => n

/-- Embedding of `stat.st_size`. -/
def size : FsNode → Nat
  | file _ s _ _ _ _ => s
  | dir _ s _ _ _ _ _ _ => s

/-- Embedding of `stat.st_mtime`. -/
def mtime : FsNode → Int
  | file _ _ m _ _ _ => m
  | dir _ _ m _ _ _ _ _ => m

/-- Embedding of `entry.is_symlink()`. -/
def isLink : FsNode → Bool
  | file _ _ _ l _ _ => l
  | dir _ _ _ l _ _ _ _ => l

/-- Embedding of `stat.st_ino`. -/
def inode : FsNode → Option Nat
  | file _ _ _ _ i _ => i
  | dir _ _ _ _ i _ _ _ => i

/-- Whether `entry.lstat()` / `entry.stat()` raises for this entry. -/
def statError : FsNode → Bool
  | file _ _ _ _ _ e => e
  | dir _ _ _ _ _ e _ _ => e

/-- Embedding of `entry.is_dir()` (pathlib follows links, and a link to a directory is
modelled as a `dir` node, so this is just the constructor test). -/
def isDir : FsNode → Bool
  | file _ _ _ _ _ _ => false
  | dir _ _ _ _ _ _ _ _ => true

end FsNode

/-- The scan settings `DirectoryScanner` reads from its config:
`scan.follow_symlinks` and `scan.max_depth`. -/
structure ScannerConfig where
  follow_symlinks : Bool
  max_depth : Option Nat

mutual

/-- Embedding of `DirectoryScanner._scan_directory` (`core/scanner.py`): depth guard
(`depth > max_depth` returns), `iterdir` permission guard, then the entry
loop.  Returns the emitted records and the updated visited-inode set. -/
def scan_directory (cfg : ScannerConfig) (dirPath : String) (depth : Nat)
    (visited : List (Option Nat)) (readable : Bool)
    (children : List FsNode) : List FileInfo × List (Option Nat) :=
  if (match cfg.max_depth with
      | some m => decide (depth > m)
      | none => false) then ([], visited)
  else if !readable then ([], visited)
  else scanEntries cfg dirPath depth children visited

/-- The `for entry in entries` loop of `_scan_directory`: skip entries whose
`lstat` raises; skip symlinks unless `follow_symlinks`; skip an
already-visited symlink inode and record a followed symlink's inode; emit a
`FileInfo` whose `size` is `st_size` for files and 0 for directories; recurse
into a non-link subdirectory. -/
def scanEntries (cfg : ScannerConfig) (dirPath : String) (depth : Nat)
    (l : List FsNode) (visited : List (Option Nat)) :
    List FileInfo × List (Option Nat) :=
  match l with
  | [] => ([], visited)
  | e :: rest =>
      if e.statError then scanEntries cfg dirPath depth rest visited
      else if e.isLink && !cfg.follow_symlinks then
        scanEntries cfg dirPath depth rest visited
      else if e.isLink && (e.inode.isSome && visited.contains e.inode) then
        scanEntries cfg dirPath depth rest visited
      else
        let visited1 := if e.isLink then e.inode :: visited else visited
        let info : FileInfo :=
          { path := dirPath ++ "/" ++ e.name, name := e.name,
            size := if e.isDir then 0 else e.size, mtime := e.mtime,
            is_dir := e.isDir, is_link := e.isLink, inode := e.inode,
            depth := depth }
        match e with
        | FsNode.dir nm _ _ lnk _ _ rd kids =>
            if !lnk then
              let sub := scan_directory cfg (dirPath ++ "/" ++ nm) (depth + 1)
                visited1 rd kids
              let tail := scanEntries cfg dirPath depth rest sub.2
              (info :: (sub.1 ++ tail.1), tail.2)
            else
              let tail := scanEntries cfg dirPath depth rest visited1
              (info :: tail.1, tail.2)
        | FsNode.file _ _ _ _ _ _ =>
            let tail := scanEntries cfg dirPath depth rest visited1
            (info :: tail.1, tail.2)

end

/-- Embedding of `DirectoryScanner.scan` via `scan_generator` on a root directory with
listability `readable` and entries `children`: the full record list. -/
def DirectoryScanner.scan (cfg : ScannerConfig) (rootPath : String)
    (readable : Bool) (children : List FsNode) : List FileInfo :=
  (scan_directory cfg rootPath 0 [] readable children).1

/-- Embedding of `FileInfo.to_snapshot` (`core/scanner.py`). -/
def FileInfo.to_snapshot (f : FileInfo) : FileSnapshot :=
  { path := f.path, size := f.size, mtime := f.mtime, inode := f.inode }

/-- The `ScanSnapshot` that `DirectoryScanner.scan_incremental` builds and
persists after a scan (both the cold branch and the incremental branch use
this exact construction): `total_size = sum(f.size for f in files)` over all
records, `file_count = len(files)`. -/
def DirectoryScanner.cold_snapshot (cfg : ScannerConfig) (rootPath : String)
    (readable : Bool) (children : List FsNode) (now : Int) : ScanSnapshot :=
  let files := DirectoryScanner.scan cfg rootPath readable children
  { path := rootPath, timestamp := now,
    files := files.map FileInfo.to_snapshot,
    total_size := (files.map FileInfo.size).sum,
    file_count := files.length }

/-- Embedding of `ScanStrategy` from `diskcleaner/optimization/scan.py` with its
`__init__` defaults. -/
structure ScanStrategy where
  concurrent : Bool := true
  cache_enabled : Bool := true
  early_stop : Bool := false
  max_files : Nat := 50000
  max_time : Nat := 25
  excludes : List String := []

namespace ScanStrategy

/-- Embedding of `ScanStrategy.should_exclude`: normalize the candidate path, then prefix
test against each exclude (the exclude itself is not normalized here). -/
def should_exclude (s : ScanStrategy) (np : String → String) (path : String) :
    Bool :=
  s.excludes.any fun e => pyStartswith e (np path)

/-- Embedding of `ScanStrategy.should_stop_early`: nothing when `early_stop` is off, else
file-count limit, else wall-clock limit.  (`ConcurrentScanner.scan` never
calls this.) -/
def should_stop_early (s : ScanStrategy) (current_count : Nat)
    (elapsed_time : Nat) : Bool :=
  if !s.early_stop then false
  else if current_count ≥ s.max_files then true
  else if elapsed_time ≥ s.max_time then true
  else false

end ScanStrategy

/-- Embedding of `ScanResult` from `diskcleaner/optimization/scan.py`. -/
structure ScanResult where
  items : List Opt.FileInfo
  total_count : Nat
  total_size : Nat
  error_count : Nat := 0
  scan_time : Int := 0
  stopped_early : Bool := false
  stop_reason : String := ""
deriving Repr, DecidableEq

/-- One `os.scandir` pass of `ConcurrentScanner.scan` over a directory's
entries (shared between the worker body and the main thread's top-level
seeding): emits a record per entry whose `stat` succeeds (`size` is the raw
`st_size`, directories included; `is_dir` is `entry.is_dir(follow_symlinks
=False)`), counts a stat error otherwise, and collects the non-excluded,
non-link subdirectories for the work queue.  Returns
(items, errors, size, subdirectories). -/
def listEntries (np : String → String) (strategy : ScanStrategy)
    (dirPath : String) :
    List FsNode → List Opt.FileInfo × Nat × Nat × List (String × Bool × List FsNode)
  | [] => ([], 0, 0, [])
  | e :: rest =>
      let tail := listEntries np strategy dirPath rest
      if e.statError then (tail.1, tail.2.1 + 1, tail.2.2.1, tail.2.2.2)
      else
        let item : Opt.FileInfo :=
          { path := dirPath ++ "/" ++ e.name, name := e.name, size := e.size,
            mtime := e.mtime, is_dir := e.isDir && !e.isLink, depth := 0 }
        let subs :=
          match e with
          | FsNode.dir nm _ _ lnk _ _ rd kids =>
              if !lnk &&
                  !(strategy.should_exclude np (dirPath ++ "/" ++ nm)) then
                (dirPath ++ "/" ++ nm, rd, kids) :: tail.2.2.2
              else tail.2.2.2
          | FsNode.file _ _ _ _ _ _ => tail.2.2.2
        (item :: tail.1, tail.2.1, e.size + tail.2.2.1, subs)

/-- Embedding of `work_queue.put(subdir, timeout=1.0)` for each collected subdirectory:
an insertion into the bounded queue (`maxsize = 10000`) succeeds while there
is room; a full queue raises `queue.Full` and the worker sets `stop_event`
(the second component). -/
def enqueueAll :
    List (String × Bool × List FsNode) → List (String × Bool × List FsNode) →
      List (String × Bool × List FsNode) × Bool
  | q, [] => (q, false)
  | q, s :: rest =>
      if q.length < 10000 then enqueueAll (q ++ [s]) rest
      else ((enqueueAll q rest).1, true)

mutual

/-- Size of a filesystem node (used as the worker-loop fuel measure). -/
def FsNode.weight : FsNode → Nat
  | FsNode.file _ _ _ _ _ _ => 1
  | FsNode.dir _ _ _ _ _ _ _ kids => 1 + FsNode.weightList kids

/-- Size of a list of filesystem nodes; at least 1, so popping a directory
with no children still shrinks the measure. -/
def FsNode.weightList : List FsNode → Nat
  | [] => 1
  | e :: rest => 1 + FsNode.weight e + FsNode.weightList rest

end

/-- Termination measure of the worker loop: total tree size still queued. -/
def queueMeasure (q : List (String × Bool × List FsNode)) : Nat :=
  (q.map fun it => FsNode.weightList it.2.2).sum

/-- The worker pool of `ConcurrentScanner.scan`, serialized: pop a
directory; a `should_pause` memory report sets `stop_event` and stops; an
unreadable directory contributes nothing (`except Exception: pass`);
otherwise its entries are emitted and its subdirectories enqueued, a full
queue setting `stop_event`.  Workers exit when the flag is set; the queue
empty means natural completion.  `fuel` bounds the number of iterations;
`queueMeasure` strictly decreases at every pop (see
`workerLoop_fuel_irrelevant`), so any `fuel ≥ queueMeasure queue` computes
the fixpoint. -/
def workerLoop (strategy : ScanStrategy) (np : String → String)
    (memPause : Bool) :
    Nat → List (String × Bool × List FsNode) → List Opt.FileInfo → Nat → Nat →
      Bool → List Opt.FileInfo × Nat × Nat × Bool
  | _, _, items, errs, size, true => (items, errs, size, true)
  | 0, _, items, errs, size, stopped => (items, errs, size, stopped)
  | _ + 1, [], items, errs, size, stopped => (items, errs, size, stopped)
  | fuel + 1, (p, rd, kids) :: rest, items, errs, size, false =>
      if memPause then (items, errs, size, true)
      else if rd then
        let le := listEntries np strategy p kids
        let enq := enqueueAll rest le.2.2.2
        workerLoop strategy np memPause fuel enq.1 (items ++ le.1)
          (errs + le.2.1) (size + le.2.2.1) enq.2
      else workerLoop strategy np memPause fuel rest items errs size false

/-- Embedding of `ConcurrentScanner.scan` (`optimization/scan.py`), serialized: a
nonexistent or non-directory path returns the empty result (with the
`stopped_early=False` default); otherwise the main thread seeds the queue
from the top-level entries and the workers drain it; after
`work_queue.join()` the code runs `stop_event.set()` *unconditionally*, and
the result is built with `stopped_early=stop_event.is_set()` while
`stop_reason` is never assigned anywhere, so every scan of an existing
directory reports `stopped_early=True` and an empty `stop_reason`, and
neither `strategy.max_files` nor `strategy.should_stop_early` is ever
consulted. -/
def ConcurrentScanner.scan (strategy : ScanStrategy) (np : String → String)
    (memPause : Bool) (rootPath : String) (root : FsNode) : ScanResult :=
  match root with
  | FsNode.file _ _ _ _ _ _ =>
      { items := [], total_count := 0, total_size := 0 }
  | FsNode.dir _ _ _ _ _ _ rd kids =>
      if !rd then
        { items := [], total_count := 0, total_size := 0, error_count := 0,
          scan_time := 0, stopped_early := true, stop_reason := "" }
      else
        let le := listEntries np strategy rootPath kids
        let enq := enqueueAll [] le.2.2.2
        let w := workerLoop strategy np memPause (queueMeasure enq.1 + 1)
          enq.1 le.1 le.2.1 le.2.2.1 enq.2
        { items := w.1, total_count := w.1.length, total_size := w.2.2.1,
          error_count := w.2.1, scan_time := 0, stopped_early := true,
          stop_reason := "" }

/-- The failing scan of the spec scenario: a readable directory holding 50
plain files, scanned with `max_files = 10` and early-stop enabled. -/
def scanProbeStrategy : ScanStrategy :=
  { concurrent := true, cache_enabled := true, early_stop := true,
    max_files := 10, max_time := 25, excludes := [] }

/-- A directory of 50 files of size 1 each. -/
def scanProbeTree : FsNode :=
  FsNode.dir "root" 0 0 false none false true
    ((List.range 50).map fun i => FsNode.file (toString i) 1 0 false none false)

-- ===================== THEOREMS =====================

theorem dictInsert_sound {K V : Type} [DecidableEq K] {key : V → Option K} :
    ∀ (acc : List (K × List V)) (k : K) (v : V),
    (∀ p ∈ acc, ∀ x ∈ p.2, key x = some p.1) → key v = some k →
    ∀ p ∈ dictInsert acc k v, ∀ x ∈ p.2, key x = some p.1
  | [], k, v, _, hv => by
      intro p hp x hx
      simp only [dictInsert, List.mem_singleton] at hp
      subst hp
      simp only [List.mem_singleton] at hx
      subst hx
      exact hv
  | (k', vs) :: t, k, v, h, hv => by
      intro p hp x hx
      simp only [dictInsert] at hp
      by_cases hk : k = k'
      · simp only [if_pos hk] at hp
        rcases List.mem_cons.mp hp with h1 | h2
        · subst h1
          rcases List.mem_append.mp hx with h3 | h4
          · exact h (k', vs) (List.mem_cons_self _ _) x h3
          · simp only [List.mem_singleton] at h4
            subst h4
            rw [hv, hk]
        · exact h p (List.mem_cons_of_mem _ h2) x hx
      · simp only [if_neg hk] at hp
        rcases List.mem_cons.mp hp with h1 | h2
        · subst h1
          exact h (k', vs) (List.mem_cons_self _ _) x hx
        · exact dictInsert_sound t k v
            (fun q hq => h q (List.mem_cons_of_mem _ hq)) hv p h2 x hx

theorem dictInsert_pred {K V : Type} {Q : V → Prop} [DecidableEq K] :
    ∀ (acc : List (K × List V)) (k : K) (v : V),
    (∀ p ∈ acc, ∀ x ∈ p.2, Q x) → Q v →
    ∀ p ∈ dictInsert acc k v, ∀ x ∈ p.2, Q x
  | [], k, v, _, hv => by
      intro p hp x hx
      simp only [dictInsert, List.mem_singleton] at hp
      subst hp
      simp only [List.mem_singleton] at hx
      subst hx
      exact hv
  | (k', vs) :: t, k, v, h, hv => by
      intro p hp x hx
      simp only [dictInsert] at hp
      by_cases hk : k = k'
      · simp only [if_pos hk] at hp
        rcases List.mem_cons.mp hp with h1 | h2
        · subst h1
          rcases List.mem_append.mp hx with h3 | h4
          · exact h (k', vs) (List.mem_cons_self _ _) x h3
          · simp only [List.mem_singleton] at h4
            subst h4
            exact hv
        · exact h p (List.mem_cons_of_mem _ h2) x hx
      · simp only [if_neg hk] at hp
        rcases List.mem_cons.mp hp with h1 | h2
        · subst h1
          exact h (k', vs) (List.mem_cons_self _ _) x hx
        · exact dictInsert_pred t k v
            (fun q hq => h q (List.mem_cons_of_mem _ hq)) hv p h2 x hx

theorem dictInsert_keys {K V : Type} [DecidableEq K]
    (acc : List (K × List V)) (k : K) (v : V) :
    (dictInsert acc k v).map Prod.fst = acc.map Prod.fst ∨
      (dictInsert acc k v).map Prod.fst = acc.map Prod.fst ++ [k] ∧
        k ∉ acc.map Prod.fst := by
  induction acc with
  | nil =>
      right
      simp [dictInsert]
  | cons q t ih =>
      obtain ⟨k', vs⟩ := q
      by_cases hk : k = k'
      · left
        simp [dictInsert, if_pos hk]
      · rcases ih with h1 | ⟨h2, h3⟩
        · left
          simp [dictInsert, if_neg hk, h1]
        · right
          constructor
          · simp [dictInsert, if_neg hk, h2]
          · simp only [List.map_cons, List.mem_cons]
            rintro (h4 | h5)
            · exact hk h4
            · exact h3 h5

theorem dictInsert_keys_nodup {K V : Type} [DecidableEq K]
    {acc : List (K × List V)} (k : K) (v : V)
    (h : (acc.map Prod.fst).Nodup) :
    ((dictInsert acc k v).map Prod.fst).Nodup := by
  rcases dictInsert_keys acc k v with h1 | ⟨h2, h3⟩
  · rw [h1]; exact h
  · rw [h2]
    exact List.Nodup.append h (List.nodup_singleton k)
      (by simpa [List.disjoint_singleton] using h3)

theorem dictGroup_fold_sound {K V : Type} [DecidableEq K] {key : V → Option K} :
    ∀ (l : List V) (acc : List (K × List V)),
    (∀ p ∈ acc, ∀ x ∈ p.2, key x = some p.1) →
    ∀ p ∈ l.foldl
      (fun acc v =>
        match key v with
        | none => acc
        | some k => dictInsert acc k v) acc, ∀ x ∈ p.2, key x = some p.1
  | [], acc, hacc => by simpa using hacc
  | v :: t, acc, hacc => by
      simp only [List.foldl_cons]
      cases hkv : key v with
      | none => exact dictGroup_fold_sound t acc hacc
      | some k => exact dictGroup_fold_sound t _ (dictInsert_sound acc k v hacc hkv)

theorem dictGroup_sound {K V : Type} [DecidableEq K] (key : V → Option K)
    (l : List V) :
    ∀ p ∈ dictGroup key l, ∀ x ∈ p.2, key x = some p.1 :=
  dictGroup_fold_sound l [] (by simp)

theorem dictGroup_fold_pred {K V : Type} {Q : V → Prop} [DecidableEq K]
    {key : V → Option K} :
    ∀ (l : List V) (acc : List (K × List V)),
    (∀ p ∈ acc, ∀ x ∈ p.2, Q x) → (∀ v ∈ l, Q v) →
    ∀ p ∈ l.foldl
      (fun acc v =>
        match key v with
        | none => acc
        | some k => dictInsert acc k v) acc, ∀ x ∈ p.2, Q x
  | [], acc, hacc, _ => by simpa using hacc
  | v :: t, acc, hacc, hl => by
      simp only [List.foldl_cons]
      cases hkv : key v with
      | none =>
          exact dictGroup_fold_pred t acc hacc
            (fun x hx => hl x (List.mem_cons_of_mem _ hx))
      | some k =>
          exact dictGroup_fold_pred t _
            (dictInsert_pred acc k v hacc (hl v (List.mem_cons_self _ _)))
            (fun x hx => hl x (List.mem_cons_of_mem _ hx))

theorem dictGroup_pred {K V : Type} {Q : V → Prop} [DecidableEq K]
    (key : V → Option K) (l : List V) (hl : ∀ v ∈ l, Q v) :
    ∀ p ∈ dictGroup key l, ∀ x ∈ p.2, Q x :=
  dictGroup_fold_pred l [] (by simp) hl

theorem dictGroup_fold_keys_nodup {K V : Type} [DecidableEq K]
    {key : V → Option K} :
    ∀ (l : List V) (acc : List (K × List V)),
    (acc.map Prod.fst).Nodup →
    ((l.foldl
      (fun acc v =>
        match key v with
        | none => acc
        | some k => dictInsert acc k v) acc).map Prod.fst).Nodup
  | [], acc, hacc => by simpa using hacc
  | v :: t, acc, hacc => by
      simp only [List.foldl_cons]
      cases hkv : key v with
      | none => exact dictGroup_fold_keys_nodup t acc hacc
      | some k => exact dictGroup_fold_keys_nodup t _ (dictInsert_keys_nodup k v hacc)

theorem dictGroup_keys_nodup {K V : Type} [DecidableEq K] (key : V → Option K)
    (l : List V) : ((dictGroup key l).map Prod.fst).Nodup :=
  dictGroup_fold_keys_nodup l [] (by simp)

/-- Distinct entries of a grouping dict carry distinct keys. -/
theorem dictGroup_pairwise_keys {K V : Type} [DecidableEq K]
    (key : V → Option K) (l : List V) :
    (dictGroup key l).Pairwise (fun p q => p.1 ≠ q.1) := by
  have h := dictGroup_keys_nodup key l
  rw [List.Nodup, List.pairwise_map] at h
  exact h

/-- Claim C4 — For every detection run (any strategy, any hash oracle, any
input list), the groups returned by `find_duplicates` are sorted by
reclaimable space in descending order, and every group satisfies
`reclaimable_space = size * (count - 1)`; this holds for both
`core/duplicate_finder.py` and the optimized `optimization/hash.py`
implementation. -/
theorem C4_groups_sorted_by_reclaimable_desc
    (strategy : String) (hashFn : String → Option String)
    (files : List FileInfo) (hashFn2 : String → String)
    (files2 : List Opt.FileInfo) :
    ((DuplicateFinder.find_duplicates strategy hashFn files).Pairwise
      fun a b => b.reclaimable_space ≤ a.reclaimable_space)
    ∧ (∀ g ∈ DuplicateFinder.find_duplicates strategy hashFn files,
        g.reclaimable_space = g.size * (g.count - 1))
    ∧ ((Opt.find_duplicates hashFn2 files2).Pairwise
        fun a b => b.reclaimable_space ≤ a.reclaimable_space)
    ∧ ∀ g ∈ Opt.find_duplicates hashFn2 files2,
        g.reclaimable_space = g.size * (g.count - 1) := by
  refine ⟨?_, fun g _ => rfl, ?_, ?_⟩
  · unfold DuplicateFinder.find_duplicates
    dsimp only
    split
    · exact List.Pairwise.nil
    · split
      · exact List.Pairwise.nil
      · exact List.sorted_insertionSort _ _
  · unfold Opt.find_duplicates
    dsimp only
    split
    · exact List.Pairwise.nil
    · split
      · exact List.Pairwise.nil
      · exact List.sorted_insertionSort _ _
  · intro g hg
    unfold Opt.find_duplicates at hg
    dsimp only at hg
    split at hg
    · simp at hg
    · split at hg
      · simp at hg
      · rw [List.mem_insertionSort] at hg
        obtain ⟨p, _, hp⟩ := List.mem_filterMap.mp hg
        split at hp
        · cases hp
          rfl
        · cases hp

theorem ifSome_eq {α : Type} {c : Prop} [Decidable c] {x g : α}
    (h : (if c then some x else none) = some g) : c ∧ x = g := by
  split at h
  · exact ⟨by assumption, Option.some.inj h⟩
  · cases h

theorem find_by_hash_struct (hashFn : String → Option String)
    (files : List FileInfo) :
    ∀ g ∈ DuplicateFinder.find_by_hash hashFn files, ∀ f ∈ g.files,
      f ∈ files ∧ hashFn f.path = g.hash_value := by
  intro g hg f hf
  unfold DuplicateFinder.find_by_hash at hg
  dsimp only at hg
  obtain ⟨p, hp, hif⟩ := List.mem_filterMap.mp hg
  obtain ⟨-, rfl⟩ := ifSome_eq hif
  exact ⟨dictGroup_pred (Q := fun x => x ∈ files) _ files (fun v hv => hv) p hp f hf,
    dictGroup_sound (fun f => hashFn f.path) files p hp f hf⟩

theorem find_by_hash_pairwise (hashFn : String → Option String)
    (files : List FileInfo) :
    (DuplicateFinder.find_by_hash hashFn files).Pairwise
      fun g1 g2 => ∀ f1 ∈ g1.files, ∀ f2 ∈ g2.files, f1.path ≠ f2.path := by
  unfold DuplicateFinder.find_by_hash
  dsimp only
  rw [List.pairwise_filterMap]
  refine (dictGroup_pairwise_keys (fun f => hashFn f.path) files).imp_of_mem ?_
  intro p q hp hq hne g hg g' hg' f1 hf1 f2 hf2 hpath
  obtain ⟨-, rfl⟩ := ifSome_eq hg
  obtain ⟨-, rfl⟩ := ifSome_eq hg'
  have h1 : hashFn f1.path = some p.1 :=
    dictGroup_sound (fun f => hashFn f.path) files p hp f1 hf1
  have h2 : hashFn f2.path = some q.1 :=
    dictGroup_sound (fun f => hashFn f.path) files q hq f2 hf2
  rw [hpath] at h1
  exact hne (Option.some.inj (h1.symm.trans h2))

theorem find_by_fast_struct (hashFn : String → Option String)
    (files : List FileInfo) :
    ∀ g ∈ DuplicateFinder.find_by_fast_strategy hashFn files, ∃ b : Int,
      ∀ f ∈ g.files,
        f ∈ files ∧ f.size = g.size ∧ f.mtime = b ∧
          hashFn f.path = g.hash_value := by
  intro g hg
  unfold DuplicateFinder.find_by_fast_strategy at hg
  dsimp only at hg
  obtain ⟨sp, hsp, hg2⟩ := List.mem_flatMap.mp hg
  obtain ⟨q, hq, hif⟩ := List.mem_filterMap.mp hg2
  obtain ⟨-, rfl⟩ := ifSome_eq hif
  obtain ⟨p, hp, hsp2⟩ := List.mem_flatMap.mp hsp
  split at hsp2
  · cases hsp2
  · obtain ⟨q', hq', hif'⟩ := List.mem_filterMap.mp hsp2
    obtain ⟨-, rfl⟩ := ifSome_eq hif'
    refine ⟨q'.1, ?_⟩
    intro f hf
    have hfq : f ∈ q'.2 :=
      dictGroup_pred (Q := fun x => x ∈ q'.2) _ q'.2 (fun v hv => hv) q hq f hf
    have hfp : f ∈ p.2 :=
      dictGroup_pred (Q := fun x => x ∈ p.2) _ p.2 (fun v hv => hv) q' hq' f hfq
    have hsize : some f.size = some p.1 :=
      dictGroup_sound (fun x : FileInfo => some x.size) files p hp f hfp
    have hmt : some f.mtime = some q'.1 :=
      dictGroup_sound (fun x : FileInfo => some x.mtime) p.2 q' hq' f hfq
    refine ⟨dictGroup_pred (Q := fun x => x ∈ files) _ files (fun v hv => hv) p hp f hfp,
      Option.some.inj hsize, Option.some.inj hmt, ?_⟩
    exact dictGroup_sound (fun x : FileInfo => hashFn x.path) q'.2 q hq f hf

theorem find_by_fast_pairwise (hashFn : String → Option String)
    (files : List FileInfo)
    (hcons : ∀ f ∈ files, ∀ f' ∈ files, f.path = f'.path → f = f') :
    (DuplicateFinder.find_by_fast_strategy hashFn files).Pairwise
      fun g1 g2 => ∀ f1 ∈ g1.files, ∀ f2 ∈ g2.files, f1.path ≠ f2.path := by
  unfold DuplicateFinder.find_by_fast_strategy
  dsimp only
  rw [List.pairwise_flatMap]
  constructor
  · intro sp hsp
    have hsub : ∀ x ∈ sp.2, x ∈ files := by
      obtain ⟨p, hp, hsp2⟩ := List.mem_flatMap.mp hsp
      split at hsp2
      · cases hsp2
      · obtain ⟨q', hq', hif'⟩ := List.mem_filterMap.mp hsp2
        obtain ⟨-, rfl⟩ := ifSome_eq hif'
        intro x hx
        have hxp : x ∈ p.2 :=
          dictGroup_pred (Q := fun y => y ∈ p.2) _ p.2 (fun v hv => hv) q' hq' x hx
        exact dictGroup_pred (Q := fun y => y ∈ files) _ files
          (fun v hv => hv) p hp x hxp
    rw [List.pairwise_filterMap]
    refine (dictGroup_pairwise_keys (fun f => hashFn f.path) sp.2).imp_of_mem ?_
    intro q q' hq hq' hne g hg g' hg' f1 hf1 f2 hf2 hpath
    obtain ⟨-, rfl⟩ := ifSome_eq hg
    obtain ⟨-, rfl⟩ := ifSome_eq hg'
    have hf1s : f1 ∈ sp.2 :=
      dictGroup_pred (Q := fun y => y ∈ sp.2) _ sp.2 (fun v hv => hv) q hq f1 hf1
    have hf2s : f2 ∈ sp.2 :=
      dictGroup_pred (Q := fun y => y ∈ sp.2) _ sp.2 (fun v hv => hv) q' hq' f2 hf2
    have heq : f1 = f2 := hcons f1 (hsub f1 hf1s) f2 (hsub f2 hf2s) hpath
    have h1 : hashFn f1.path = some q.1 :=
      dictGroup_sound (fun x : FileInfo => hashFn x.path) sp.2 q hq f1 hf1
    have h2 : hashFn f2.path = some q'.1 :=
      dictGroup_sound (fun x : FileInfo => hashFn x.path) sp.2 q' hq' f2 hf2
    rw [heq] at h1
    exact hne (Option.some.inj (h1.symm.trans h2))
  · have hmem : ((dictGroup (fun f : FileInfo => some f.size) files).flatMap fun p =>
        if p.2.length < 2 then []
        else (dictGroup (fun f : FileInfo => some f.mtime) p.2).filterMap fun q =>
          if 2 ≤ q.2.length then some (p.1, q.2) else none).Pairwise
        fun sp1 sp2 => ∀ x1 ∈ sp1.2, ∀ x2 ∈ sp2.2, x1.path ≠ x2.path := by
      rw [List.pairwise_flatMap]
      constructor
      · intro p hp
        split
        · exact List.Pairwise.nil
        · rw [List.pairwise_filterMap]
          refine (dictGroup_pairwise_keys (fun f => some f.mtime) p.2).imp_of_mem ?_
          intro q q' hq hq' hne sp hsp sp' hsp' x1 hx1 x2 hx2 hpath
          obtain ⟨-, rfl⟩ := ifSome_eq hsp
          obtain ⟨-, rfl⟩ := ifSome_eq hsp'
          have hx1p : x1 ∈ p.2 :=
            dictGroup_pred (Q := fun y => y ∈ p.2) _ p.2 (fun v hv => hv) q hq x1 hx1
          have hx2p : x2 ∈ p.2 :=
            dictGroup_pred (Q := fun y => y ∈ p.2) _ p.2 (fun v hv => hv) q' hq' x2 hx2
          have hx1f : x1 ∈ files :=
            dictGroup_pred (Q := fun y => y ∈ files) _ files (fun v hv => hv) p hp x1 hx1p
          have hx2f : x2 ∈ files :=
            dictGroup_pred (Q := fun y => y ∈ files) _ files (fun v hv => hv) p hp x2 hx2p
          have heq : x1 = x2 := hcons x1 hx1f x2 hx2f hpath
          have h1 : some x1.mtime = some q.1 :=
            dictGroup_sound (fun x : FileInfo => some x.mtime) p.2 q hq x1 hx1
          have h2 : some x2.mtime = some q'.1 :=
            dictGroup_sound (fun x : FileInfo => some x.mtime) p.2 q' hq' x2 hx2
          rw [heq] at h1
          exact hne (Option.some.inj (h1.symm.trans h2))
      · refine (dictGroup_pairwise_keys (fun f : FileInfo => some f.size) files).imp_of_mem ?_
        intro p p' hp hp' hne sp hsp sp' hsp' x1 hx1 x2 hx2 hpath
        split at hsp
        · cases hsp
        · obtain ⟨q1, hq1, hif1⟩ := List.mem_filterMap.mp hsp
          obtain ⟨-, rfl⟩ := ifSome_eq hif1
          split at hsp'
          · cases hsp'
          · obtain ⟨q2, hq2, hif2⟩ := List.mem_filterMap.mp hsp'
            obtain ⟨-, rfl⟩ := ifSome_eq hif2
            have hx1p : x1 ∈ p.2 :=
              dictGroup_pred (Q := fun y => y ∈ p.2) _ p.2 (fun v hv => hv) q1 hq1 x1 hx1
            have hx2p : x2 ∈ p'.2 :=
              dictGroup_pred (Q := fun y => y ∈ p'.2) _ p'.2 (fun v hv => hv) q2 hq2 x2 hx2
            have hx1f : x1 ∈ files :=
              dictGroup_pred (Q := fun y => y ∈ files) _ files (fun v hv => hv) p hp x1 hx1p
            have hx2f : x2 ∈ files :=
              dictGroup_pred (Q := fun y => y ∈ files) _ files (fun v hv => hv) p' hp' x2 hx2p
            have heq : x1 = x2 := hcons x1 hx1f x2 hx2f hpath
            have h1 : some x1.size = some p.1 :=
              dictGroup_sound (fun x : FileInfo => some x.size) files p hp x1 hx1p
            have h2 : some x2.size = some p'.1 :=
              dictGroup_sound (fun x : FileInfo => some x.size) files p' hp' x2 hx2p
            rw [heq] at h1
            exact hne (Option.some.inj (h1.symm.trans h2))
    refine hmem.imp_of_mem ?_
    intro sp1 sp2 hsp1 hsp2 hdis g hg g' hg' f1 hf1 f2 hf2 hpath
    obtain ⟨q, hq, hif⟩ := List.mem_filterMap.mp hg
    obtain ⟨-, rfl⟩ := ifSome_eq hif
    obtain ⟨q', hq', hif'⟩ := List.mem_filterMap.mp hg'
    obtain ⟨-, rfl⟩ := ifSome_eq hif'
    have h1 : f1 ∈ sp1.2 :=
      dictGroup_pred (Q := fun y => y ∈ sp1.2) _ sp1.2 (fun v hv => hv) q hq f1 hf1
    have h2 : f2 ∈ sp2.2 :=
      dictGroup_pred (Q := fun y => y ∈ sp2.2) _ sp2.2 (fun v hv => hv) q' hq' f2 hf2
    exact hdis f1 h1 f2 h2 hpath

theorem opt_find_struct (hashFn2 : String → String) (files2 : List Opt.FileInfo) :
    ∀ g ∈ Opt.find_duplicates hashFn2 files2, ∀ f ∈ g.files,
      hashFn2 f.path = g.hash_value := by
  intro g hg f hf
  unfold Opt.find_duplicates at hg
  dsimp only at hg
  split at hg
  · simp at hg
  · split at hg
    · simp at hg
    · rw [List.mem_insertionSort] at hg
      obtain ⟨p, hp, hif⟩ := List.mem_filterMap.mp hg
      obtain ⟨-, rfl⟩ := ifSome_eq hif
      have h := dictGroup_sound
        (fun f : Opt.FileInfo =>
          if hashFn2 f.path = "" then none else some (hashFn2 f.path))
        _ p hp f hf
      dsimp only at h
      split at h
      · cases h
      · exact Option.some.inj h

theorem opt_find_pairwise (hashFn2 : String → String) (files2 : List Opt.FileInfo) :
    (Opt.find_duplicates hashFn2 files2).Pairwise
      fun g1 g2 => ∀ f1 ∈ g1.files, ∀ f2 ∈ g2.files, f1.path ≠ f2.path := by
  unfold Opt.find_duplicates
  dsimp only
  split
  · exact List.Pairwise.nil
  · split
    · exact List.Pairwise.nil
    · rw [(List.perm_insertionSort _ _).pairwise_iff
        (fun h f2 hf2 f1 hf1 heq => h f1 hf1 f2 hf2 heq.symm)]
      rw [List.pairwise_filterMap]
      refine (dictGroup_pairwise_keys _ _).imp_of_mem ?_
      intro p q hp hq hne g hg g' hg' f1 hf1 f2 hf2 hpath
      obtain ⟨-, rfl⟩ := ifSome_eq hg
      obtain ⟨-, rfl⟩ := ifSome_eq hg'
      have h1 := dictGroup_sound
        (fun f : Opt.FileInfo =>
          if hashFn2 f.path = "" then none else some (hashFn2 f.path))
        _ p hp f1 hf1
      have h2 := dictGroup_sound
        (fun f : Opt.FileInfo =>
          if hashFn2 f.path = "" then none else some (hashFn2 f.path))
        _ q hq f2 hf2
      dsimp only at h1 h2
      rw [hpath] at h1
      rw [h1] at h2
      exact hne (Option.some.inj h2)

/-- Claim C2 (amended) — In every detection run, each returned `DuplicateGroup`
contains only members with identical hash (the group's recorded
`hash_value`); under the `fast` strategy the members also all carry the
group's recorded `size`; and — provided any two input records with equal
paths are equal, as `FileRecord`s produced by one scan are — no file path
appears in two distinct groups of one run.  The same holds for the optimized
`optimization/hash.py` finder (where path-consistency is not even needed for
group distinctness).  The original claim's "identical size" for *every*
strategy fails: the accurate path groups by hash alone, without the size
pre-grouping the spec describes (see the counterexample). -/
theorem C2_duplicate_group_membership_invariants
    (strategy : String) (hashFn : String → Option String)
    (files : List FileInfo) (hashFn2 : String → String)
    (files2 : List Opt.FileInfo) :
    (∀ g ∈ DuplicateFinder.find_duplicates strategy hashFn files,
        ∀ f ∈ g.files, hashFn f.path = g.hash_value)
    ∧ (∀ g ∈ DuplicateFinder.find_duplicates "fast" hashFn files,
        ∀ f ∈ g.files, f.size = g.size)
    ∧ ((∀ f ∈ files, ∀ f' ∈ files, f.path = f'.path → f = f') →
        ∀ g1 ∈ DuplicateFinder.find_duplicates strategy hashFn files,
        ∀ g2 ∈ DuplicateFinder.find_duplicates strategy hashFn files,
        ∀ f1 ∈ g1.files, ∀ f2 ∈ g2.files, f1.path = f2.path → g1 = g2)
    ∧ (∀ g ∈ Opt.find_duplicates hashFn2 files2,
        ∀ f ∈ g.files, hashFn2 f.path = g.hash_value)
    ∧ (∀ g1 ∈ Opt.find_duplicates hashFn2 files2,
        ∀ g2 ∈ Opt.find_duplicates hashFn2 files2,
        ∀ f1 ∈ g1.files, ∀ f2 ∈ g2.files, f1.path = f2.path → g1 = g2) := by
  have hsymm : Symmetric (fun g1 g2 : DuplicateGroup =>
      ∀ f1 ∈ g1.files, ∀ f2 ∈ g2.files, f1.path ≠ f2.path) :=
    fun _ _ h f2 hf2 f1 hf1 heq => h f1 hf1 f2 hf2 heq.symm
  have hsymm2 : Symmetric (fun g1 g2 : Opt.DuplicateGroup =>
      ∀ f1 ∈ g1.files, ∀ f2 ∈ g2.files, f1.path ≠ f2.path) :=
    fun _ _ h f2 hf2 f1 hf1 heq => h f1 hf1 f2 hf2 heq.symm
  refine ⟨?_, ?_, ?_, ?_, ?_⟩
  · intro g hg f hf
    unfold DuplicateFinder.find_duplicates at hg
    dsimp only at hg
    split at hg
    · simp at hg
    · split at hg
      · simp at hg
      · rw [List.mem_insertionSort] at hg
        split at hg
        · exact (find_by_hash_struct hashFn _ g hg f hf).2
        · obtain ⟨b, hb⟩ := find_by_fast_struct hashFn _ g hg
          exact (hb f hf).2.2.2
  · intro g hg f hf
    unfold DuplicateFinder.find_duplicates at hg
    dsimp only at hg
    split at hg
    · simp at hg
    · split at hg
      · simp at hg
      · rw [List.mem_insertionSort] at hg
        split at hg
        · next hcond =>
            simp [DuplicateFinder.should_use_accurate] at hcond
        · obtain ⟨b, hb⟩ := find_by_fast_struct hashFn _ g hg
          exact (hb f hf).2.1
  · intro hcons g1 hg1 g2 hg2 f1 hf1 f2 hf2 hpath
    have hPW : (DuplicateFinder.find_duplicates strategy hashFn files).Pairwise
        fun a b => ∀ x1 ∈ a.files, ∀ x2 ∈ b.files, x1.path ≠ x2.path := by
      unfold DuplicateFinder.find_duplicates
      dsimp only
      split
      · exact List.Pairwise.nil
      · split
        · exact List.Pairwise.nil
        · rw [(List.perm_insertionSort _ _).pairwise_iff (fun h => hsymm h)]
          split
          · exact find_by_hash_pairwise hashFn _
          · exact find_by_fast_pairwise hashFn _
              fun f hf f' hf' heq =>
                hcons f (List.mem_of_mem_filter hf) f' (List.mem_of_mem_filter hf') heq
    by_contra hne
    exact hPW.forall hsymm hg1 hg2 hne f1 hf1 f2 hf2 hpath
  · exact opt_find_struct hashFn2 files2
  · intro g1 hg1 g2 hg2 f1 hf1 f2 hf2 hpath
    by_contra hne
    exact (opt_find_pairwise hashFn2 files2).forall hsymm2 hg1 hg2 hne
      f1 hf1 f2 hf2 hpath

/-- Claim C2 counterexample — the claim as stated is false: under the
`accurate` path `find_duplicates` groups by hash alone, so two files of
*different* sizes whose hash computation returns the same digest (sampled
hashing of large files, a changed file between scan and hash, or a hash
collision) land in one group whose members do not share an identical size. -/
theorem C2_counterexample_group_with_two_sizes :
    ¬ (∀ g ∈ DuplicateFinder.find_duplicates "accurate" (fun _ => some "h")
          [{ path := "a", name := "a", size := 1, mtime := 0,
             is_dir := false, is_link := false },
           { path := "b", name := "b", size := 2, mtime := 0,
             is_dir := false, is_link := false }],
        ∀ f1 ∈ g.files, ∀ f2 ∈ g.files, f1.size = f2.size) := by
  decide

/-- Claim C2 witness — the amended theorem applied to a concrete run: two
files of size 100 with equal hash form one group; the first file is a member
and its hash equals the group's recorded hash. -/
theorem C2_duplicate_group_membership_invariants_witness :
    ({ files := [{ path := "a.txt", name := "a.txt", size := 100, mtime := 0,
                   is_dir := false, is_link := false },
                 { path := "b.txt", name := "b.txt", size := 100, mtime := 0,
                   is_dir := false, is_link := false }],
       size := 100, hash_value := some "hX" } : DuplicateGroup) ∈
        DuplicateFinder.find_duplicates "accurate" (fun _ => some "hX")
          [{ path := "a.txt", name := "a.txt", size := 100, mtime := 0,
             is_dir := false, is_link := false },
           { path := "b.txt", name := "b.txt", size := 100, mtime := 0,
             is_dir := false, is_link := false }]
    ∧ (fun _ : String => some "hX") "a.txt" =
        ({ files := [{ path := "a.txt", name := "a.txt", size := 100, mtime := 0,
                       is_dir := false, is_link := false },
                     { path := "b.txt", name := "b.txt", size := 100, mtime := 0,
                       is_dir := false, is_link := false }],
           size := 100, hash_value := some "hX" } : DuplicateGroup).hash_value :=
  ⟨by decide,
    (C2_duplicate_group_membership_invariants "accurate" (fun _ => some "hX")
      [{ path := "a.txt", name := "a.txt", size := 100, mtime := 0,
         is_dir := false, is_link := false },
       { path := "b.txt", name := "b.txt", size := 100, mtime := 0,
         is_dir := false, is_link := false }] (fun _ => "") []).1
      _ (by decide)
      { path := "a.txt", name := "a.txt", size := 100, mtime := 0,
        is_dir := false, is_link := false } (by decide)⟩

/-- Claim C5 (amended) — Under strategy `adaptive`, `find_duplicates` selects
the accurate (full-hash) algorithm exactly when the number of non-directory
*input files* is below 1000 (`_should_use_accurate(len(file_list))`), not
when the spec's candidate count is: the run is identical to the run with the
strategy fixed by that file count.  Size pre-filtering happens only on the
fast path; the accurate path hashes every file. -/
theorem C5_adaptive_selects_on_total_file_count
    (hashFn : String → Option String) (files : List FileInfo) :
    DuplicateFinder.find_duplicates "adaptive" hashFn files =
      DuplicateFinder.find_duplicates
        (if (files.filter fun f => !f.is_dir).length <
            DuplicateFinder.ADAPTIVE_THRESHOLD
         then "accurate" else "fast")
        hashFn files := by
  unfold DuplicateFinder.find_duplicates
  dsimp only
  by_cases h0 : files.isEmpty = true
  · simp [h0]
  · by_cases h1 : (files.filter fun f => !f.is_dir).isEmpty = true
    · simp [h0, h1]
    · by_cases hn : (files.filter fun f => !f.is_dir).length <
          DuplicateFinder.ADAPTIVE_THRESHOLD
      · simp [h0, h1, hn, DuplicateFinder.should_use_accurate]
      · simp [h0, h1, hn, DuplicateFinder.should_use_accurate]

/-- Inserting a key absent from a dict appends a fresh singleton bucket at
the end. -/
theorem dictInsert_fresh {K V : Type} [DecidableEq K] :
    ∀ (d : List (K × List V)) (k : K) (v : V), k ∉ d.map Prod.fst →
      dictInsert d k v = d ++ [(k, [v])]
  | [], _, _, _ => rfl
  | (k', vs) :: t, k, v, h => by
      simp only [List.map_cons, List.mem_cons, not_or] at h
      simp only [dictInsert, if_neg h.1, List.cons_append]
      rw [dictInsert_fresh t k v h.2]

/-- Inserting at a key held by the last entry appends the value at the end
of that entry's bucket. -/
theorem dictInsert_last {K V : Type} [DecidableEq K] :
    ∀ (d : List (K × List V)) (k : K) (vs : List V) (v : V),
      k ∉ d.map Prod.fst →
      dictInsert (d ++ [(k, vs)]) k v = d ++ [(k, vs ++ [v])]
  | [], k, vs, v, _ => by simp [dictInsert]
  | (k', vs') :: t, k, vs, v, h => by
      simp only [List.map_cons, List.mem_cons, not_or] at h
      rw [List.cons_append]
      simp only [dictInsert, if_neg h.1]
      rw [dictInsert_last t k vs v h.2]
      rfl

/-- Values whose key computation raises are skipped: folding them into a
grouping dict leaves it unchanged. -/
theorem dictGroup_fold_skip_none {K V : Type} [DecidableEq K]
    {key : V → Option K} :
    ∀ (l : List V) (acc : List (K × List V)), (∀ v ∈ l, key v = none) →
    l.foldl
      (fun acc v =>
        match key v with
        | none => acc
        | some k => dictInsert acc k v) acc = acc
  | [], _, _ => rfl
  | v :: t, acc, h => by
      simp only [List.foldl_cons]
      cases hkv : key v with
      | none =>
          exact dictGroup_fold_skip_none t acc
            fun x hx => h x (List.mem_cons_of_mem _ hx)
      | some k => exact absurd (h v (List.mem_cons_self _ _)) (by simp [hkv])

/-- Folding values with pairwise distinct keys, all fresh for the
accumulator, appends one singleton bucket per value, in input order. -/
theorem dictGroup_fold_fresh {K V : Type} [DecidableEq K]
    {key : V → Option K} (f : V → K) :
    ∀ (l : List V) (acc : List (K × List V)),
      (∀ v ∈ l, key v = some (f v)) → (l.map f).Nodup →
      (∀ v ∈ l, f v ∉ acc.map Prod.fst) →
    l.foldl
      (fun acc v =>
        match key v with
        | none => acc
        | some k => dictInsert acc k v) acc
      = acc ++ l.map fun v => (f v, [v])
  | [], acc, _, _, _ => by simp
  | v :: t, acc, h1, h2, h3 => by
      simp only [List.map_cons, List.nodup_cons] at h2
      have hc : ∀ u ∈ t, f u ∉ ((acc ++ [(f v, [v])]).map Prod.fst) := by
        intro u hu
        simp only [List.map_append, List.mem_append, List.map_cons,
          List.map_nil, List.mem_singleton, not_or]
        refine ⟨h3 u (List.mem_cons_of_mem _ hu), fun he => h2.1 ?_⟩
        rw [← he]
        exact List.mem_map_of_mem f hu
      simp only [List.foldl_cons]
      cases hkv : key v with
      | none => exact absurd (h1 v (List.mem_cons_self _ _)) (by simp [hkv])
      | some k =>
          have hk : k = f v := by
            have hv := h1 v (List.mem_cons_self _ _)
            rw [hkv] at hv
            exact Option.some_injective _ hv
          subst hk
          show List.foldl
              (fun acc v =>
                match key v with
                | none => acc
                | some k => dictInsert acc k v)
              (dictInsert acc (f v) v) t
            = acc ++ List.map (fun v => (f v, [v])) (v :: t)
          rw [dictInsert_fresh acc (f v) v (h3 v (List.mem_cons_self _ _))]
          rw [dictGroup_fold_fresh f t (acc ++ [(f v, [v])])
            (fun x hx => h1 x (List.mem_cons_of_mem _ hx)) h2.2 hc]
          simp

/-- Folding two values sharing one key fresh for the accumulator appends a
single two-element bucket. -/
theorem dictGroup_fold_pair {K V : Type} [DecidableEq K] {key : V → Option K}
    (a b : V) (k : K) (ha : key a = some k) (hb : key b = some k)
    (acc : List (K × List V)) (hk : k ∉ acc.map Prod.fst) :
    [a, b].foldl
      (fun acc v =>
        match key v with
        | none => acc
        | some k => dictInsert acc k v) acc
      = acc ++ [(k, [a, b])] := by
  simp only [List.foldl_cons, List.foldl_nil]
  cases hkv : key a with
  | none => exact absurd ha (by simp [hkv])
  | some k1 =>
      have hk1 : k = k1 := by
        rw [hkv] at ha
        exact (Option.some_injective _ ha).symm
      subst hk1
      cases hkb : key b with
      | none => exact absurd hb (by simp [hkb])
      | some k2 =>
          have hk2 : k = k2 := by
            rw [hkb] at hb
            exact (Option.some_injective _ hb).symm
          subst hk2
          show dictInsert (dictInsert acc k a) k b = acc ++ [(k, [a, b])]
          rw [dictInsert_fresh acc k a hk]
          rw [dictInsert_last acc k [a] b hk]
          rfl

/-- The pad files of the probe carry pairwise distinct sizes. -/
theorem probe_pads_sizes_nodup :
    (((List.range 998).map padFile).map fun f : FileInfo => f.size).Nodup := by
  rw [List.map_map]
  refine List.Nodup.map ?_ (List.nodup_range _)
  intro a b h
  simp only [Function.comp, padFile] at h
  omega

/-- Size 5000 does not occur among the pad buckets. -/
theorem probe_5000_fresh :
    5000 ∉ ((((List.range 998).map padFile).map
      fun v : FileInfo => (v.size, [v])).map Prod.fst) := by
  intro h
  simp only [List.map_map, List.mem_map, List.mem_range] at h
  obtain ⟨i, hi, he⟩ := h
  simp only [Function.comp, padFile] at he
  omega

/-- The size-grouping dict of the probe input: one singleton bucket per pad
file, then the shared bucket of the duplicate pair. -/
theorem probe_size_dict :
    dictGroup (fun f : FileInfo => some f.size) adaptiveProbeFiles =
      (((List.range 998).map padFile).map fun v : FileInfo => (v.size, [v]))
        ++ [(5000, [probeDupA, probeDupB])] := by
  unfold adaptiveProbeFiles dictGroup
  rw [List.foldl_append]
  rw [dictGroup_fold_fresh (fun f : FileInfo => f.size)
    ((List.range 998).map padFile) [] (fun _ _ => rfl)
    probe_pads_sizes_nodup (by simp)]
  rw [List.nil_append]
  rw [@dictGroup_fold_pair Nat FileInfo _ (fun f : FileInfo => some f.size)
    probeDupA probeDupB 5000 rfl rfl _ probe_5000_fresh]

/-- The spec's candidate count on the probe input is 2: only the duplicate
pair shares an exact size. -/
theorem probe_candidate_count : candidateCountSpec adaptiveProbeFiles = 2 := by
  unfold candidateCountSpec
  rw [probe_size_dict]
  rw [List.filter_append]
  rw [List.filter_eq_nil_iff.mpr (fun p hp => by
    obtain ⟨v, _, rfl⟩ := List.mem_map.mp hp
    simp)]
  rfl

/-- Hashing any pad file of the probe raises `OSError`. -/
theorem probe_pads_hash_none :
    ∀ v ∈ (List.range 998).map padFile,
      (fun f : FileInfo => adaptiveProbeHash f.path) v = none := by
  intro v hv
  obtain ⟨i, _, rfl⟩ := List.mem_map.mp hv
  rfl

/-- The fast strategy returns no groups on the probe input: every size
bucket except the pair's is a singleton, and the pair's two mtime buckets
are singletons. -/
theorem probe_fast_empty :
    DuplicateFinder.find_by_fast_strategy adaptiveProbeHash adaptiveProbeFiles
      = [] := by
  unfold DuplicateFinder.find_by_fast_strategy
  dsimp only
  rw [probe_size_dict]
  have hpot : (((((List.range 998).map padFile).map
        fun v : FileInfo => (v.size, [v]))
          ++ [(5000, [probeDupA, probeDupB])]).flatMap
      fun p : Nat × List FileInfo =>
        if p.2.length < 2 then []
        else
          (dictGroup (fun f : FileInfo => some f.mtime) p.2).filterMap
            fun q : Int × List FileInfo =>
              if 2 ≤ q.2.length then some (p.1, q.2) else none) = [] := by
    rw [List.flatMap_eq_nil_iff]
    intro p hp
    rcases List.mem_append.mp hp with h | h
    · obtain ⟨v, _, rfl⟩ := List.mem_map.mp h
      simp
    · rw [List.mem_singleton] at h
      subst h
      decide
  rw [hpot]
  rfl

/-- The accurate (full-hash) algorithm finds exactly the duplicate pair on
the probe input. -/
theorem probe_hash_groups :
    DuplicateFinder.find_by_hash adaptiveProbeHash adaptiveProbeFiles =
      [{ files := [probeDupA, probeDupB], size := 5000,
         hash_value := some "dup" }] := by
  unfold DuplicateFinder.find_by_hash
  dsimp only
  have hdict : dictGroup (fun f : FileInfo => adaptiveProbeHash f.path)
      adaptiveProbeFiles = [("dup", [probeDupA, probeDupB])] := by
    unfold adaptiveProbeFiles dictGroup
    rw [List.foldl_append]
    rw [dictGroup_fold_skip_none ((List.range 998).map padFile) []
      probe_pads_hash_none]
    rw [@dictGroup_fold_pair String FileInfo _
      (fun f : FileInfo => adaptiveProbeHash f.path)
      probeDupA probeDupB "dup" rfl rfl [] (by simp)]
    rfl
  rw [hdict]
  decide

/-- The probe input holds exactly 1000 files. -/
theorem probe_length : adaptiveProbeFiles.length = 1000 := by
  unfold adaptiveProbeFiles
  rw [List.length_append, List.length_map, List.length_range]
  rfl

/-- No probe file is a directory, so the directory filter keeps the whole
input. -/
theorem probe_filter_all :
    (adaptiveProbeFiles.filter fun f => !f.is_dir) = adaptiveProbeFiles := by
  rw [List.filter_eq_self]
  intro a ha
  unfold adaptiveProbeFiles at ha
  rcases List.mem_append.mp ha with h | h
  · obtain ⟨i, _, rfl⟩ := List.mem_map.mp h
    rfl
  · rcases List.mem_cons.mp h with h | h
    · subst h
      rfl
    · rw [List.mem_singleton] at h
      subst h
      rfl

/-- The probe input is nonempty. -/
theorem probe_isEmpty : adaptiveProbeFiles.isEmpty = false := by
  have h := probe_length
  cases he : adaptiveProbeFiles with
  | nil => rw [he] at h; exact absurd h (by decide)
  | cons a t => rfl

/-- On the probe input the adaptive strategy selects the fast algorithm
(1000 files is not below the threshold) and returns no groups. -/
theorem probe_adaptive_empty :
    DuplicateFinder.find_duplicates "adaptive" adaptiveProbeHash
      adaptiveProbeFiles = [] := by
  unfold DuplicateFinder.find_duplicates
  dsimp only
  rw [probe_filter_all, probe_isEmpty, probe_length]
  rw [show DuplicateFinder.should_use_accurate "adaptive" 1000 = false from
    rfl]
  simp only [Bool.false_eq_true, if_false]
  rw [probe_fast_empty]
  rfl

/-- On the probe input the accurate strategy returns exactly the duplicate
pair. -/
theorem probe_accurate_group :
    DuplicateFinder.find_duplicates "accurate" adaptiveProbeHash
      adaptiveProbeFiles =
      [{ files := [probeDupA, probeDupB], size := 5000,
         hash_value := some "dup" }] := by
  unfold DuplicateFinder.find_duplicates
  dsimp only
  rw [probe_filter_all, probe_isEmpty, probe_length]
  rw [show DuplicateFinder.should_use_accurate "accurate" 1000 = true from
    rfl]
  simp only [Bool.false_eq_true, if_false, if_true]
  rw [probe_hash_groups]
  rfl

/-- Claim C5 counterexample — 1000 files whose candidate count is 2
(< 1000): the spec demands the accurate algorithm, but the code counts
*all* non-directory files, selects the fast algorithm, and misses the
duplicate pair `a`/`b` (their mtime buckets differ) that the accurate
algorithm finds. -/
theorem C5_counterexample_candidate_count :
    candidateCountSpec adaptiveProbeFiles < 1000
    ∧ DuplicateFinder.should_use_accurate "adaptive"
        (adaptiveProbeFiles.filter fun f => !f.is_dir).length = false
    ∧ DuplicateFinder.find_duplicates "adaptive" adaptiveProbeHash
        adaptiveProbeFiles = []
    ∧ DuplicateFinder.find_duplicates "accurate" adaptiveProbeHash
        adaptiveProbeFiles ≠ [] := by
  refine ⟨?_, ?_, probe_adaptive_empty, ?_⟩
  · rw [probe_candidate_count]
    decide
  · rw [probe_filter_all, probe_length]
    rfl
  · rw [probe_accurate_group]
    simp

/-- Claim C3 — Protection checks run first and short-circuit: a file matching a
protected path, extension or filename pattern verifies as `PROTECTED`
regardless of the lock and write-permission oracles (quantified over every
oracle agreeing on the protection functions); with the lock check enabled,
a non-protected locked file is `LOCKED`; after that, with permission
verification enabled, a non-writable file is `NO_PERMISSION`; otherwise the
verdict is `SAFE`. -/
theorem C3_protection_precedes_lock_and_permission
    (c : SafetyChecker) (os : OsOracle) (f : FileInfo) :
    (((c.is_protected_path os f.path || c.is_protected_extension os f.name ||
        c.is_protected_pattern os f.name) = true) →
      ∀ os' : OsOracle, os'.normpath = os.normpath → os'.extOf = os.extOf →
        os'.fnmatch = os.fnmatch →
        c.verify_file os' f = FileStatus.PROTECTED)
    ∧ (((c.is_protected_path os f.path || c.is_protected_extension os f.name ||
          c.is_protected_pattern os f.name) = false) →
        c.check_locks = true → os.locked f.path = true →
        c.verify_file os f = FileStatus.LOCKED)
    ∧ (((c.is_protected_path os f.path || c.is_protected_extension os f.name ||
          c.is_protected_pattern os f.name) = false) →
        (c.check_locks = true → os.locked f.path = false) →
        c.verify_perms = true → os.writeAccess f.path = false →
        c.verify_file os f = FileStatus.NO_PERMISSION)
    ∧ (((c.is_protected_path os f.path || c.is_protected_extension os f.name ||
          c.is_protected_pattern os f.name) = false) →
        (c.check_locks = true → os.locked f.path = false) →
        (c.verify_perms = true → os.writeAccess f.path = true) →
        c.verify_file os f = FileStatus.SAFE) := by
  refine ⟨?_, ?_, ?_, ?_⟩
  · intro h os' h1 h2 h3
    have hpp : c.is_protected_path os' f.path = c.is_protected_path os f.path := by
      simp [SafetyChecker.is_protected_path, h1]
    have hpe : c.is_protected_extension os' f.name =
        c.is_protected_extension os f.name := by
      simp [SafetyChecker.is_protected_extension, h2]
    have hpt : c.is_protected_pattern os' f.name =
        c.is_protected_pattern os f.name := by
      simp [SafetyChecker.is_protected_pattern, h3]
    simp only [Bool.or_eq_true] at h
    unfold SafetyChecker.verify_file
    rcases h with (hp | he) | hq
    · rw [hpp, hp]
      simp
    · rw [hpe, he]
      split
      · rfl
      · simp
    · rw [hpt, hq]
      split
      · rfl
      · split
        · rfl
        · simp
  · intro h hl hlk
    simp only [Bool.or_eq_false_iff] at h
    obtain ⟨⟨h1, h2⟩, h3⟩ := h
    simp [SafetyChecker.verify_file, h1, h2, h3, hl,
      SafetyChecker.is_locked, hlk]
  · intro h hnl hp hw
    simp only [Bool.or_eq_false_iff] at h
    obtain ⟨⟨h1, h2⟩, h3⟩ := h
    by_cases hcl : c.check_locks = true
    · simp [SafetyChecker.verify_file, h1, h2, h3, hcl, hp, hw,
        SafetyChecker.is_locked, SafetyChecker.has_write_permission, hnl hcl]
    · simp only [Bool.not_eq_true] at hcl
      simp [SafetyChecker.verify_file, h1, h2, h3, hcl, hp, hw,
        SafetyChecker.is_locked, SafetyChecker.has_write_permission]
  · intro h hnl hnp
    simp only [Bool.or_eq_false_iff] at h
    obtain ⟨⟨h1, h2⟩, h3⟩ := h
    by_cases hcl : c.check_locks = true
    · by_cases hp : c.verify_perms = true
      · simp [SafetyChecker.verify_file, h1, h2, h3, hcl, hp,
          SafetyChecker.is_locked, SafetyChecker.has_write_permission,
          hnl hcl, hnp hp]
      · simp only [Bool.not_eq_true] at hp
        simp [SafetyChecker.verify_file, h1, h2, h3, hcl, hp,
          SafetyChecker.is_locked, hnl hcl]
    · simp only [Bool.not_eq_true] at hcl
      by_cases hp : c.verify_perms = true
      · simp [SafetyChecker.verify_file, h1, h2, h3, hcl, hp,
          SafetyChecker.is_locked, SafetyChecker.has_write_permission, hnp hp]
      · simp only [Bool.not_eq_true] at hp
        simp [SafetyChecker.verify_file, h1, h2, h3, hcl, hp]

/-- Claim C3 witness — the theorem applied to concrete checkers and files:
a file under the protected path `/sys` is `PROTECTED` even with an oracle
reporting it unlocked and writable; an unprotected locked file is `LOCKED`;
an unprotected, unlocked, non-writable file is `NO_PERMISSION`; and an
unprotected, unlocked, writable file is `SAFE`. -/
theorem C3_protection_precedes_lock_and_permission_witness :
    SafetyChecker.verify_file
      { protected_paths := ["/sys"], protected_extensions := [],
        protected_patterns := [], check_locks := true, verify_perms := true }
      { normpath := id, extOf := fun _ => "", fnmatch := fun _ _ => false,
        locked := fun _ => false, writeAccess := fun _ => true }
      { path := "/sys/x", name := "x", size := 1, mtime := 0,
        is_dir := false, is_link := false } = FileStatus.PROTECTED
    ∧ SafetyChecker.verify_file
      { protected_paths := [], protected_extensions := [],
        protected_patterns := [], check_locks := true, verify_perms := true }
      { normpath := id, extOf := fun _ => "", fnmatch := fun _ _ => false,
        locked := fun _ => true, writeAccess := fun _ => true }
      { path := "/tmp/y", name := "y", size := 1, mtime := 0,
        is_dir := false, is_link := false } = FileStatus.LOCKED
    ∧ SafetyChecker.verify_file
      { protected_paths := [], protected_extensions := [],
        protected_patterns := [], check_locks := true, verify_perms := true }
      { normpath := id, extOf := fun _ => "", fnmatch := fun _ _ => false,
        locked := fun _ => false, writeAccess := fun _ => false }
      { path := "/tmp/z", name := "z", size := 1, mtime := 0,
        is_dir := false, is_link := false } = FileStatus.NO_PERMISSION
    ∧ SafetyChecker.verify_file
      { protected_paths := [], protected_extensions := [],
        protected_patterns := [], check_locks := true, verify_perms := true }
      { normpath := id, extOf := fun _ => "", fnmatch := fun _ _ => false,
        locked := fun _ => false, writeAccess := fun _ => true }
      { path := "/tmp/w", name := "w", size := 1, mtime := 0,
        is_dir := false, is_link := false } = FileStatus.SAFE :=
  ⟨(C3_protection_precedes_lock_and_permission _
      { normpath := id, extOf := fun _ => "", fnmatch := fun _ _ => false,
        locked := fun _ => false, writeAccess := fun _ => true } _).1
      (by decide) _ rfl rfl rfl,
   (C3_protection_precedes_lock_and_permission _
      { normpath := id, extOf := fun _ => "", fnmatch := fun _ _ => false,
        locked := fun _ => true, writeAccess := fun _ => true } _).2.1
      (by decide) rfl rfl,
   (C3_protection_precedes_lock_and_permission _
      { normpath := id, extOf := fun _ => "", fnmatch := fun _ _ => false,
        locked := fun _ => false, writeAccess := fun _ => false } _).2.2.1
      (by decide) (fun _ => rfl) rfl rfl,
   (C3_protection_precedes_lock_and_permission _
      { normpath := id, extOf := fun _ => "", fnmatch := fun _ _ => false,
        locked := fun _ => false, writeAccess := fun _ => true } _).2.2.2
      (by decide) (fun _ => rfl) (fun _ => rfl)⟩

/-- Claim C10 — `verify_file` returns one of exactly the four verdicts `SAFE`,
`LOCKED`, `NO_PERMISSION`, `PROTECTED`; the fifth enum value `ERROR` is
unreachable through `verify_file` and `verify_all`. -/
theorem C10_error_verdict_unreachable
    (c : SafetyChecker) (os : OsOracle) (f : FileInfo)
    (files : List FileInfo) :
    (c.verify_file os f = FileStatus.SAFE ∨
      c.verify_file os f = FileStatus.LOCKED ∨
      c.verify_file os f = FileStatus.NO_PERMISSION ∨
      c.verify_file os f = FileStatus.PROTECTED)
    ∧ ∀ p ∈ c.verify_all os files, p.2 ≠ FileStatus.ERROR := by
  have hfour : ∀ g : FileInfo,
      c.verify_file os g = FileStatus.SAFE ∨
      c.verify_file os g = FileStatus.LOCKED ∨
      c.verify_file os g = FileStatus.NO_PERMISSION ∨
      c.verify_file os g = FileStatus.PROTECTED := by
    intro g
    unfold SafetyChecker.verify_file
    split
    · exact Or.inr (Or.inr (Or.inr rfl))
    · split
      · exact Or.inr (Or.inr (Or.inr rfl))
      · split
        · exact Or.inr (Or.inr (Or.inr rfl))
        · split
          · exact Or.inr (Or.inl rfl)
          · split
            · exact Or.inr (Or.inr (Or.inl rfl))
            · exact Or.inl rfl
  refine ⟨hfour f, ?_⟩
  intro p hp
  unfold SafetyChecker.verify_all at hp
  obtain ⟨g, _, rfl⟩ := List.mem_map.mp hp
  rcases hfour g with h | h | h | h <;> simp [h]

/-- Claim C10 witness — `verify_all` on a concrete file list: the produced
verdict pair is not `ERROR`. -/
theorem C10_error_verdict_unreachable_witness :
    (({ path := "/tmp/w", name := "w", size := 1, mtime := 0,
        is_dir := false, is_link := false } : FileInfo), FileStatus.SAFE) ∈
      SafetyChecker.verify_all
        { protected_paths := [], protected_extensions := [],
          protected_patterns := [], check_locks := false, verify_perms := false }
        { normpath := id, extOf := fun _ => "", fnmatch := fun _ _ => false,
          locked := fun _ => false, writeAccess := fun _ => true }
        [{ path := "/tmp/w", name := "w", size := 1, mtime := 0,
           is_dir := false, is_link := false }]
    ∧ (({ path := "/tmp/w", name := "w", size := 1, mtime := 0,
          is_dir := false, is_link := false } : FileInfo),
        FileStatus.SAFE).2 ≠ FileStatus.ERROR :=
  ⟨by decide,
   (C10_error_verdict_unreachable
      { protected_paths := [], protected_extensions := [],
        protected_patterns := [], check_locks := false, verify_perms := false }
      { normpath := id, extOf := fun _ => "", fnmatch := fun _ _ => false,
        locked := fun _ => false, writeAccess := fun _ => true }
      { path := "/tmp/w", name := "w", size := 1, mtime := 0,
        is_dir := false, is_link := false }
      [{ path := "/tmp/w", name := "w", size := 1, mtime := 0,
         is_dir := false, is_link := false }]).2 _ (by decide)⟩

/-- Claim C4 witness — the theorem applied to a concrete accurate run: the
single returned group is a member of the output and satisfies the
reclaimable-space formula. -/
theorem C4_groups_sorted_by_reclaimable_desc_witness :
    ({ files := [{ path := "a.txt", name := "a.txt", size := 100, mtime := 0,
                   is_dir := false, is_link := false },
                 { path := "b.txt", name := "b.txt", size := 100, mtime := 0,
                   is_dir := false, is_link := false }],
       size := 100, hash_value := some "hX" } : DuplicateGroup) ∈
        DuplicateFinder.find_duplicates "accurate" (fun _ => some "hX")
          [{ path := "a.txt", name := "a.txt", size := 100, mtime := 0,
             is_dir := false, is_link := false },
           { path := "b.txt", name := "b.txt", size := 100, mtime := 0,
             is_dir := false, is_link := false }]
    ∧ ({ files := [{ path := "a.txt", name := "a.txt", size := 100, mtime := 0,
                     is_dir := false, is_link := false },
                   { path := "b.txt", name := "b.txt", size := 100, mtime := 0,
                     is_dir := false, is_link := false }],
         size := 100, hash_value := some "hX" } : DuplicateGroup).reclaimable_space =
        100 * (2 - 1) :=
  ⟨by decide,
   (C4_groups_sorted_by_reclaimable_desc "accurate" (fun _ => some "hX")
      [{ path := "a.txt", name := "a.txt", size := 100, mtime := 0,
         is_dir := false, is_link := false },
       { path := "b.txt", name := "b.txt", size := 100, mtime := 0,
         is_dir := false, is_link := false }] (fun _ => "") []).2.1
      _ (by decide)⟩

theorem ScanSnapshot.from_dict_to_dict (s : ScanSnapshot) :
    ScanSnapshot.from_dict s.to_dict = s := by
  have hcomp : FileSnapshot.from_dict ∘ FileSnapshot.to_dict = id :=
    funext fun f => rfl
  cases s with
  | mk path timestamp files total_size file_count =>
      simp [ScanSnapshot.to_dict, ScanSnapshot.from_dict, List.map_map, hcomp]

/-- Claim C6 — Cache round-trip: `get` immediately composed with `put` (same
root, any hash function for the cache-file name, any prior store contents)
under an unexpired TTL returns a snapshot equal to the stored one — in
particular with identical `file_count`, `total_size` and path sequence. -/
theorem C6_cache_round_trip (ph : String → String) (st : CacheStore)
    (path : String) (snap : ScanSnapshot) (t0 t1 maxAge : Int)
    (h : ¬ t1 - t0 > maxAge * 24 * 3600) :
    (CacheManager.get_scan_cache ph
        (CacheManager.save_scan_cache ph st path snap t0) path maxAge t1).2 =
      some snap
    ∧ ∃ s, (CacheManager.get_scan_cache ph
        (CacheManager.save_scan_cache ph st path snap t0) path maxAge t1).2 =
          some s
        ∧ s.file_count = snap.file_count ∧ s.total_size = snap.total_size
        ∧ s.files.map FileSnapshot.path = snap.files.map FileSnapshot.path := by
  have hmain : (CacheManager.get_scan_cache ph
      (CacheManager.save_scan_cache ph st path snap t0) path maxAge t1).2 =
        some snap := by
    unfold CacheManager.get_scan_cache CacheManager.save_scan_cache
    simp only [eq_self_iff_true, if_true]
    rw [if_neg h]
    simp [ScanSnapshot.from_dict_to_dict]
  exact ⟨hmain, snap, hmain, rfl, rfl, rfl⟩

/-- Claim C6 witness — the theorem applied to a concrete store, snapshot,
timestamps 100 → 200 and a 7-day TTL. -/
theorem C6_cache_round_trip_witness :
    ¬ ((200 : Int) - 100 > 7 * 24 * 3600)
    ∧ (CacheManager.get_scan_cache id
        (CacheManager.save_scan_cache id (fun _ => none) "/r"
          { path := "/r", timestamp := 100,
            files := [{ path := "/r/a", size := 3, mtime := 5 }],
            total_size := 3, file_count := 1 } 100) "/r" 7 200).2 =
      some { path := "/r", timestamp := 100,
             files := [{ path := "/r/a", size := 3, mtime := 5 }],
             total_size := 3, file_count := 1 } :=
  ⟨by decide,
   (C6_cache_round_trip id (fun _ => none) "/r"
      { path := "/r", timestamp := 100,
        files := [{ path := "/r/a", size := 3, mtime := 5 }],
        total_size := 3, file_count := 1 } 100 200 7 (by decide)).1⟩

/-- Claim C7 (amended) — With a TTL of 0 days, `get` after `put` returns
`none` and deletes the entry eagerly *provided any positive time has
elapsed*; the code's expiry test is strict (`cache_age > max_age_seconds`),
so at exactly zero elapsed time the entry is still returned (see the
counterexample). -/
theorem C7_ttl_zero_expires_after_any_delay (ph : String → String)
    (st : CacheStore) (path : String) (snap : ScanSnapshot) (t0 t1 : Int)
    (h : t0 < t1) :
    (CacheManager.get_scan_cache ph
        (CacheManager.save_scan_cache ph st path snap t0) path 0 t1).2 = none
    ∧ (CacheManager.get_scan_cache ph
        (CacheManager.save_scan_cache ph st path snap t0) path 0 t1).1
        (ph path) = none := by
  have hgt : t1 - t0 > 0 * 24 * 3600 := by omega
  unfold CacheManager.get_scan_cache CacheManager.save_scan_cache
  simp only [eq_self_iff_true, if_true]
  rw [if_pos hgt]
  exact ⟨rfl, by simp⟩

/-- Claim C7 witness — the amended theorem at concrete timestamps 100 → 101
with TTL 0: the get misses and the entry is gone. -/
theorem C7_ttl_zero_expires_after_any_delay_witness :
    (100 : Int) < 101
    ∧ (CacheManager.get_scan_cache id
        (CacheManager.save_scan_cache id (fun _ => none) "/r"
          { path := "/r", timestamp := 100 } 100) "/r" 0 101).2 = none :=
  ⟨by decide,
   (C7_ttl_zero_expires_after_any_delay id (fun _ => none) "/r"
      { path := "/r", timestamp := 100 } 100 101 (by decide)).1⟩

/-- Claim C7 counterexample — the claim as stated is false: with TTL 0 and a
`get` at the *same* timestamp as the `put` (zero elapsed age — attainable
with coarse filesystem mtime granularity), the strict expiry comparison
`cache_age > max_age_seconds` does not fire and the snapshot is returned
instead of none. -/
theorem C7_counterexample_zero_elapsed :
    (CacheManager.get_scan_cache id
        (CacheManager.save_scan_cache id (fun _ => none) "/r"
          { path := "/r", timestamp := 100 } 100) "/r" 0 100).2 ≠ none := by
  decide

/-- Claim C8 (amended) — `delete` never raises on a per-file failure: for an
input of 3 existing writable files and 1 nonexistent path, `success` has
exactly the 3 paths, `failed` exactly the nonexistent path, and the counts
are 3 and 1.  A failed entry, however, carries *only* the path:
`DeleteResult.failed` is a bare path list with no field for the underlying
OS error string (see the counterexample). -/
theorem C8_per_file_failures_accumulated (fs : String → FState)
    (p1 p2 p3 p4 : String) (sz1 sz2 sz3 : Nat)
    (h1 : fs p1 = FState.present true sz1 false false false)
    (h2 : fs p2 = FState.present true sz2 false false false)
    (h3 : fs p3 = FState.present true sz3 false false false)
    (h4 : fs p4 = FState.absent) :
    BatchDeleter.delete_with_progress fs [p1, p2, p3, p4] =
      { success := [p1, p2, p3], failed := [p4], total_deleted := 3,
        total_failed := 1, total_size_freed := sz1 + sz2 + sz3 } := by
  have hch : List.toChunks 1000 [p1, p2, p3, p4] = [[p1, p2, p3, p4]] := rfl
  have hb : BatchDeleter.delete_batch fs [p1, p2, p3, p4] =
      ([p1, p2, p3], [p4], sz1 + sz2 + sz3) := by
    simp [BatchDeleter.delete_batch, h1, h2, h3, h4]
  unfold BatchDeleter.delete_with_progress
  dsimp only
  rw [if_neg (by simp)]
  simp only [List.length_cons, List.length_nil]
  norm_num
  rw [hch]
  simp [hb]

/-- Claim C8 witness — the amended theorem applied to a concrete filesystem
with files `a`, `b`, `c` (sizes 10, 20, 30) and the nonexistent path `d`. -/
theorem C8_per_file_failures_accumulated_witness :
    (fun p => if p = "d" then FState.absent
              else FState.present true 10 false false false) "a" =
        FState.present true 10 false false false
    ∧ BatchDeleter.delete_with_progress
        (fun p => if p = "d" then FState.absent
                  else FState.present true 10 false false false)
        ["a", "b", "c", "d"] =
      { success := ["a", "b", "c"], failed := ["d"], total_deleted := 3,
        total_failed := 1, total_size_freed := 10 + 10 + 10 } :=
  ⟨by decide,
   C8_per_file_failures_accumulated
      (fun p => if p = "d" then FState.absent
                else FState.present true 10 false false false)
      "a" "b" "c" "d" 10 10 10 (by decide) (by decide) (by decide) (by decide)⟩

/-- Claim C8 counterexample — the claim's "every failed entry carries both the
path and the underlying OS error string" is false: two runs in which the
fourth path fails for *different* OS reasons (nonexistent vs. existing but
write-protected) produce exactly equal `DeleteResult`s, so the result
carries no information about the underlying OS error; failed entries are
bare paths. -/
theorem C8_counterexample_failed_entry_has_no_reason :
    (fun p => if p = "d" then FState.absent
              else FState.present true 1 false false false) "d" = FState.absent
    ∧ (fun p => if p = "d" then FState.present false 1 false false false
                else FState.present true 1 false false false) "d" ≠ FState.absent
    ∧ BatchDeleter.delete_with_progress
        (fun p => if p = "d" then FState.absent
                  else FState.present true 1 false false false)
        ["a", "b", "c", "d"] =
      BatchDeleter.delete_with_progress
        (fun p => if p = "d" then FState.present false 1 false false false
                  else FState.present true 1 false false false)
        ["a", "b", "c", "d"] := by
  refine ⟨by decide, by decide, by decide⟩

set_option maxHeartbeats 1600000 in
mutual

theorem scan_directory_dir_size_zero (cfg : ScannerConfig) (dirPath : String)
    (depth : Nat) (visited : List (Option Nat)) (readable : Bool)
    (children : List FsNode) :
    ∀ f ∈ (scan_directory cfg dirPath depth visited readable children).1,
      f.is_dir = true → f.size = 0 := by
  rw [scan_directory.eq_def]
  split
  · intro f hf
    simp at hf
  · split
    · intro f hf
      simp at hf
    · exact scanEntries_dir_size_zero cfg dirPath depth children visited

theorem scanEntries_dir_size_zero (cfg : ScannerConfig) (dirPath : String)
    (depth : Nat) (l : List FsNode) (visited : List (Option Nat)) :
    ∀ f ∈ (scanEntries cfg dirPath depth l visited).1,
      f.is_dir = true → f.size = 0 := by
  match l with
  | [] =>
      intro f hf
      rw [scanEntries.eq_def] at hf
      simp at hf
  | e :: rest =>
      rw [scanEntries.eq_def]
      dsimp only
      split
      · exact scanEntries_dir_size_zero cfg dirPath depth rest visited
      · split
        · exact scanEntries_dir_size_zero cfg dirPath depth rest visited
        · split
          · exact scanEntries_dir_size_zero cfg dirPath depth rest visited
          · match e with
            | FsNode.dir nm sz mt lnk ino stE rd kids =>
                dsimp only
                split
                · intro f hf hd
                  rcases List.mem_cons.mp hf with rfl | hf2
                  · rfl
                  · rcases List.mem_append.mp hf2 with h3 | h4
                    · exact scan_directory_dir_size_zero cfg
                        (dirPath ++ "/" ++ nm) (depth + 1) _ rd kids f h3 hd
                    · exact scanEntries_dir_size_zero cfg dirPath depth rest _ f h4 hd
                · intro f hf hd
                  rcases List.mem_cons.mp hf with rfl | hf2
                  · rfl
                  · exact scanEntries_dir_size_zero cfg dirPath depth rest _ f hf2 hd
            | FsNode.file nm sz mt lnk ino stE =>
                dsimp only
                intro f hf hd
                rcases List.mem_cons.mp hf with rfl | hf2
                · simp [FsNode.isDir] at hd
                · exact scanEntries_dir_size_zero cfg dirPath depth rest _ f hf2 hd

end

theorem sum_map_size_filter (files : List FileInfo)
    (h : ∀ f ∈ files, f.is_dir = true → f.size = 0) :
    (files.map FileInfo.size).sum =
      ((files.filter fun f => !f.is_dir).map FileInfo.size).sum := by
  induction files with
  | nil => rfl
  | cons f t ih =>
      have ht : ∀ g ∈ t, g.is_dir = true → g.size = 0 :=
        fun g hg => h g (List.mem_cons_of_mem _ hg)
      by_cases hd : f.is_dir = true
      · simp [hd, h f (List.mem_cons_self _ _) hd, ih ht]
      · simp only [Bool.not_eq_true] at hd
        simp [hd, ih ht]

/-- Claim C9 — Every `ScanSnapshot` that `scan_incremental` builds from a
completed scan satisfies `file_count = len(files)` and
`total_size = sum(size)` over the non-directory records: the scanner emits
every directory record with `size = 0`, so the code's sum over *all* records
equals the sum over the non-directory ones. -/
theorem C9_snapshot_invariants (cfg : ScannerConfig) (rootPath : String)
    (readable : Bool) (children : List FsNode) (now : Int) :
    (DirectoryScanner.cold_snapshot cfg rootPath readable children now).file_count =
      (DirectoryScanner.cold_snapshot cfg rootPath readable children now).files.length
    ∧ (DirectoryScanner.cold_snapshot cfg rootPath readable children now).total_size =
      (((DirectoryScanner.scan cfg rootPath readable children).filter
          fun f => !f.is_dir).map FileInfo.size).sum := by
  constructor
  · simp [DirectoryScanner.cold_snapshot]
  · have h := scan_directory_dir_size_zero cfg rootPath 0 [] readable children
    exact sum_map_size_filter _ h

/-- Claim C1 — The code violates the claim on the spec's own scenario
(`maxFiles=10`, 50 files, memory OK): `ConcurrentScanner.scan` emits all 50
records (`strategy.max_files` and `ScanStrategy.should_stop_early` are never
consulted, although the strategy itself would report the file limit), the
machine-readable `stop_reason` stays empty, and `stopped_early` is `true`
even though this run is a natural completion — `scan` calls
`stop_event.set()` unconditionally after `work_queue.join()` and then
reports `stopped_early=stop_event.is_set()`. -/
theorem C1_scan_ignores_limits_and_misreports_early_stop :
    scanProbeStrategy.max_files = 10
    ∧ (ConcurrentScanner.scan scanProbeStrategy id false "/root"
        scanProbeTree).items.length = 50
    ∧ (ConcurrentScanner.scan scanProbeStrategy id false "/root"
        scanProbeTree).stop_reason = ""
    ∧ (ConcurrentScanner.scan scanProbeStrategy id false "/root"
        scanProbeTree).stopped_early = true
    ∧ scanProbeStrategy.should_stop_early 50 0 = true := by
  refine ⟨rfl, by decide, rfl, rfl, by decide⟩

theorem weightList_pos : ∀ l : List FsNode, 0 < FsNode.weightList l := by
  intro l
  cases l <;> simp [FsNode.weightList]

theorem queueMeasure_append (q1 q2 : List (String × Bool × List FsNode)) :
    queueMeasure (q1 ++ q2) = queueMeasure q1 + queueMeasure q2 := by
  simp [queueMeasure]

theorem queueMeasure_cons (s : String × Bool × List FsNode)
    (q : List (String × Bool × List FsNode)) :
    queueMeasure (s :: q) = FsNode.weightList s.2.2 + queueMeasure q := by
  simp [queueMeasure]

theorem listEntries_subs_measure (np : String → String)
    (strategy : ScanStrategy) (dirPath : String) :
    ∀ l : List FsNode,
      queueMeasure (listEntries np strategy dirPath l).2.2.2 <
        FsNode.weightList l
  | [] => by simp [listEntries, queueMeasure, FsNode.weightList]
  | e :: rest => by
      have ih := listEntries_subs_measure np strategy dirPath rest
      rw [listEntries.eq_def]
      dsimp only
      cases e with
      | file nm sz mt lnk ino stE =>
          dsimp only
          split
          · simp only [FsNode.weightList]
            omega
          · simp only [FsNode.weightList]
            omega
      | dir nm sz mt lnk ino stE rd kids =>
          dsimp only
          split
          · simp only [FsNode.weightList, FsNode.weight]
            omega
          · split
            · rw [queueMeasure_cons]
              simp only [FsNode.weightList, FsNode.weight]
              omega
            · simp only [FsNode.weightList, FsNode.weight]
              omega

theorem enqueueAll_measure :
    ∀ (subs q : List (String × Bool × List FsNode)),
      queueMeasure (enqueueAll q subs).1 ≤ queueMeasure q + queueMeasure subs
  | [], q => by simp [enqueueAll]
  | s :: rest, q => by
      rw [enqueueAll]
      split
      · have h := enqueueAll_measure rest (q ++ [s])
        rw [queueMeasure_append] at h
        rw [queueMeasure_cons]
        simp only [queueMeasure, List.map_cons, List.map_nil, List.sum_cons,
          List.sum_nil] at h ⊢
        omega
      · have h := enqueueAll_measure rest q
        rw [queueMeasure_cons]
        dsimp only
        omega

/-- The fuel of `workerLoop` is irrelevant once it covers `queueMeasure`:
the measure strictly decreases at every pop, so `workerLoop` with any
sufficient fuel (in particular the `queueMeasure + 1` that
`ConcurrentScanner.scan` passes) computes the loop's fixpoint. -/
theorem workerLoop_congr (strategy : ScanStrategy) (np : String → String)
    (memPause : Bool) :
    ∀ (fuel1 fuel2 : Nat) (queue : List (String × Bool × List FsNode))
      (items : List Opt.FileInfo) (errs size : Nat) (stopped : Bool),
      queueMeasure queue ≤ fuel1 → queueMeasure queue ≤ fuel2 →
      workerLoop strategy np memPause fuel1 queue items errs size stopped =
        workerLoop strategy np memPause fuel2 queue items errs size stopped := by
  intro fuel1
  induction fuel1 using Nat.strong_induction_on with
  | _ fuel1 ih =>
      intro fuel2 queue items errs size stopped h1 h2
      cases stopped with
      | true => simp [workerLoop]
      | false =>
          cases queue with
          | nil =>
              cases fuel1 <;> cases fuel2 <;> simp [workerLoop]
          | cons hd rest =>
              obtain ⟨p, rd, kids⟩ := hd
              have hw : 0 < FsNode.weightList kids := weightList_pos kids
              rw [queueMeasure_cons] at h1 h2
              dsimp only at h1 h2
              cases fuel1 with
              | zero => omega
              | succ f1 =>
                  cases fuel2 with
                  | zero => omega
                  | succ f2 =>
                      simp only [workerLoop]
                      split
                      · rfl
                      · split
                        · have hsub := listEntries_subs_measure np strategy p kids
                          have henq := enqueueAll_measure
                            (listEntries np strategy p kids).2.2.2 rest
                          exact ih f1 (Nat.lt_succ_self f1) f2
                            (enqueueAll rest
                              (listEntries np strategy p kids).2.2.2).1
                            (items ++ (listEntries np strategy p kids).1)
                            (errs + (listEntries np strategy p kids).2.1)
                            (size + (listEntries np strategy p kids).2.2.1)
                            (enqueueAll rest
                              (listEntries np strategy p kids).2.2.2).2
                            (by omega) (by omega)
                        · exact ih f1 (Nat.lt_succ_self f1) f2 rest items
                            errs size false (by omega) (by omega)
